import Mathlib

set_option maxHeartbeats 1000000
set_option maxRecDepth 4000

/-
  Verification development for the kerncraft kernel analyzer and code
  transformer (src/kerncraft/kernel.py).

  The embedding is shallow: the pycparser AST node kinds used by kernel.py
  become an inductive type `CNode`; the mutable `Kernel` object becomes a
  `KernelState` record; each analyzer method becomes a function in the monad
  `KM`, which is a state monad with string errors in which mutations made
  before an error persist in the final state -- this mirrors Python exactly:
  a failing `assert` raises, but attribute writes performed on `self` before
  the raise are not rolled back.  Error values are the assert messages from
  the source (non-assert exceptions such as IndexError/KeyError/AttributeError
  are modelled as strings naming the exception).

  The code generator `as_code` becomes a pure function from the state to an
  `Except String CNode` producing the final translation unit AST; rendering
  the AST to text (pycparser CGenerator) is an out-of-scope collaborator and
  is not modelled.
-/

namespace Kerncraft

/-- accumulate the decimal value of a digit string. -/
def pyIntAux : List Char → Int → Int
  | [], acc => acc
  | c :: cs, acc => pyIntAux cs (acc * 10 + ((c.toNat : Int) - 48))

/-- Python int() on the decimal string literals produced by the parser. -/
def pyInt (s : String) : Int :=
  match s.toList with
  | '-' :: cs => -(pyIntAux cs 0)
  | cs => pyIntAux cs 0

/-- Python str.strip applied with "=", as in op.strip in _p_assignment:
removes "=" characters from both ends of the operator string. -/
def stripEq (s : String) : String :=
  String.mk (((s.toList.dropWhile (fun c => c == '=')).reverse.dropWhile
    (fun c => c == '=')).reverse)

/-- Python dict.get(k, v0) over an insertion-ordered association list. -/
def dictGetD {α : Type} (d : List (String × α)) (k : String) (v0 : α) : α :=
  match d.find? (fun p => p.1 == k) with
  | some p => p.2
  | none => v0

/-- Python `k in dict` over an insertion-ordered association list. -/
def dictContains {α : Type} (d : List (String × α)) (k : String) : Bool :=
  d.any (fun p => p.1 == k)

/-- Python dict assignment d[k] = v: replaces the value in place if the key
is present (keeping its position), otherwise appends a new entry. -/
def dictInsert {α : Type} (d : List (String × α)) (k : String) (v : α) :
    List (String × α) :=
  if dictContains d k then d.map (fun p => if p.1 == k then (k, v) else p)
  else d ++ [(k, v)]

/-- Python dict.setdefault(k, v): inserts only when the key is absent. -/
def dictSetdefault {α : Type} (d : List (String × α)) (k : String) (v : α) :
    List (String × α) :=
  if dictContains d k then d else d ++ [(k, v)]

/-- Python d[k].append(x) for a dict of lists (no-op when k is absent;
kernel.py always calls it right after setdefault, so k is present). -/
def dictAppend {α : Type} (d : List (String × List α)) (k : String) (x : α) :
    List (String × List α) :=
  d.map (fun p => if p.1 == k then (p.1, p.2 ++ [x]) else p)

/-- Python list.insert with possibly negative index (clamping semantics). -/
def pyInsert {α : Type} (l : List α) (i : Int) (x : α) : List α :=
  let n : Int := l.length
  let idx : Nat := if i < 0 then (max 0 (n + i)).toNat else (min i n).toNat
  l.take idx ++ [x] ++ l.drop idx

/-- Python list.pop(i) with possibly negative index; none models IndexError. -/
def pyPop {α : Type} (l : List α) (i : Int) : Option (α × List α) :=
  let n : Int := l.length
  let j : Int := if i < 0 then n + i else i
  if 0 ≤ j ∧ j < n then
    let idx := j.toNat
    match l.get? idx with
    | some x => some (x, l.take idx ++ l.drop (idx + 1))
    | none => none
  else none

/-- The pycparser c_ast node kinds consumed and produced by kernel.py,
with the same field order as the pycparser constructors used there
(coordinates and fields kernel.py never touches are omitted). -/
inductive CNode where
  | id (name : String)
  | const (ctype : String) (value : String)
  | binop (op : String) (left : CNode) (right : CNode)
  | unop (op : String) (expr : CNode)
  | arrayref (aname : CNode) (subscript : CNode)
  | assignment (op : String) (lvalue : CNode) (rvalue : CNode)
  | funccall (cname : CNode) (args : Option CNode)
  | exprlist (exprs : List CNode)
  | identifiertype (names : List String)
  | typedecl (declname : Option String) (quals : List String) (ctype : CNode)
  | arraydecl (ctype : CNode) (dim : CNode)
  | ptrdecl (quals : List String) (ctype : CNode)
  | typename (tname : Option String) (quals : List String) (ctype : CNode)
  | funcdecl (args : Option CNode) (ctype : CNode)
  | decl (dname : String) (quals : List String) (storage : List String)
      (funcspec : List String) (ctype : CNode) (dinit : Option CNode)
      (bitsize : Option CNode)
  | decllist (decls : List CNode)
  | forloop (finit : Option CNode) (cond : CNode) (fnext : CNode) (stmt : CNode)
  | ifstmt (cond : CNode) (iftrue : CNode) (iffalse : Option CNode)
  | compound (items : List CNode)
  | funcdef (fdecl : CNode) (pdecls : Option CNode) (body : CNode)
  | paramlist (params : List CNode)
  | fileast (ext : List CNode)

/-- Symbolic integer expressions standing in for the sympy expressions built
by conv_ast_to_sym (sympy.var, sympy.Integer, and the +,-,* operators).
Kept as a free term algebra; no claim inspects sympy normal forms. -/
inductive SymExpr where
  | sym (name : String)
  | int (n : Int)
  | add (l r : SymExpr)
  | sub (l r : SymExpr)
  | mul (l r : SymExpr)
  deriving DecidableEq, Repr

/-- Offset Descriptors recorded by _get_offsets and _p_assignment/_p_sources:
the three tuple shapes used in kernel.py. -/
inductive Offset where
  | rel (counter : String) (offset : Int)
  | abs (value : Int)
  | dir
  deriving DecidableEq, Repr

/-- Kernel.datatypes_size. -/
def datatypes_size : List (String × Nat) := [("double", 8), ("float", 4)]

/-- The mutable attributes of a Kernel object that the analyzer populates
(the Data Model) plus the kernel AST and the Constant Binding. -/
structure KernelState where
  kernel_ast : CNode
  loop_stack : List (String × SymExpr × SymExpr × Int)
  /-- the `_variables` dict (the name `variables` is reserved in Lean). -/
  vars : List (String × String × Option (List SymExpr))
  sources : List (String × List (List Offset))
  destinations : List (String × List (List Offset))
  flops : List (String × Nat)
  datatype : Option String
  constants : List (String × Int)

/-- The kernel method monad: state threading where an error (a raised
assertion) aborts the computation but keeps every mutation already made to
self, which is what a raising Python method leaves behind. -/
def KM (α : Type) : Type := KernelState → Except String α × KernelState

def KM.pure' {α : Type} (a : α) : KM α := fun s => (Except.ok a, s)

def KM.bind' {α β : Type} (x : KM α) (f : α → KM β) : KM β := fun s =>
  match x s with
  | (Except.ok a, s1) => f a s1
  | (Except.error e, s1) => (Except.error e, s1)

instance : Monad KM where
  pure := KM.pure'
  bind := KM.bind'

/-- a Python assert statement: raises msg when the condition fails. -/
def KM.check (b : Prop) [Decidable b] (msg : String) : KM Unit :=
  fun s => (if b then Except.ok () else Except.error msg, s)

def KM.fail {α : Type} (msg : String) : KM α := fun s => (Except.error msg, s)

def KM.getS : KM KernelState := fun s => (Except.ok s, s)

def KM.modifyS (f : KernelState → KernelState) : KM Unit :=
  fun s => (Except.ok (), f s)

def KM.ofExcept {α : Type} (e : Except String α) : KM α := fun s => (e, s)

@[simp] theorem KM.run_pure {α : Type} (a : α) (s : KernelState) :
    (Pure.pure (f := KM) a) s = (Except.ok a, s) := rfl

@[simp] theorem KM.run_bind {α β : Type} (x : KM α) (f : α → KM β)
    (s : KernelState) :
    (x >>= f) s = match x s with
      | (Except.ok a, s1) => f a s1
      | (Except.error e, s1) => (Except.error e, s1) := rfl

@[simp] theorem KM.run_check (b : Prop) [Decidable b] (msg : String)
    (s : KernelState) :
    KM.check b msg s = (if b then Except.ok () else Except.error msg, s) := rfl

@[simp] theorem KM.run_fail {α : Type} (msg : String) (s : KernelState) :
    KM.fail (α := α) msg s = (Except.error msg, s) := rfl

@[simp] theorem KM.run_getS (s : KernelState) :
    KM.getS s = (Except.ok s, s) := rfl

@[simp] theorem KM.run_modifyS (f : KernelState → KernelState)
    (s : KernelState) : KM.modifyS f s = (Except.ok (), f s) := rfl

@[simp] theorem KM.run_ofExcept {α : Type} (e : Except String α)
    (s : KernelState) : KM.ofExcept e s = (e, s) := rfl

@[simp] theorem except_bind_ok {α β : Type} (a : α) (f : α → Except String β) :
    (Bind.bind (Except.ok a) f) = f a := rfl

@[simp] theorem except_bind_err {α β : Type} (e : String) (f : α → Except String β) :
    (Bind.bind (Except.error (ε := String) e) f) = Except.error e := rfl

/-- a Python assert inside pure (state-free) code. -/
def echeck (b : Prop) [Decidable b] (msg : String) : Except String Unit :=
  if b then Except.ok () else Except.error msg

@[simp] theorem echeck_true (b : Prop) [Decidable b] (msg : String) (h : b) :
    echeck b msg = Except.ok () := by simp [echeck, h]

@[simp] theorem echeck_false (b : Prop) [Decidable b] (msg : String) (h : ¬ b) :
    echeck b msg = Except.error msg := by simp [echeck, h]

/- Shape predicates mirroring the `type(x) is c_ast.Kind` tests. -/

def isDecl : CNode → Bool
  | .decl _ _ _ _ _ _ _ => true
  | _ => false

def isFor : CNode → Bool
  | .forloop _ _ _ _ => true
  | _ => false

def isId : CNode → Bool
  | .id _ => true
  | _ => false

def isConst : CNode → Bool
  | .const _ _ => true
  | _ => false

def isCompound : CNode → Bool
  | .compound _ => true
  | _ => false

def isArrayRefNode : CNode → Bool
  | .arrayref _ _ => true
  | _ => false

def isArrayDeclNode : CNode → Bool
  | .arraydecl _ _ => true
  | _ => false

/-- type(x) in [c_ast.ArrayRef, c_ast.ID]. -/
def isRefOrId (n : CNode) : Bool := isArrayRefNode n || isId n

/-- type(x) in [c_ast.ID, c_ast.Constant, c_ast.BinaryOp]. -/
def isIdConstBinop : CNode → Bool
  | .id _ => true
  | .const _ _ => true
  | .binop _ _ _ => true
  | _ => false

/-- type(x) in [c_ast.Constant, c_ast.ID, c_ast.BinaryOp]. -/
def isConstIdBinop (n : CNode) : Bool := isIdConstBinop n

/-- type(x) in [c_ast.UnaryOp, c_ast.Assignment]. -/
def isUnopOrAssign : CNode → Bool
  | .unop _ _ => true
  | .assignment _ _ _ => true
  | _ => false

/-- type(x) in [c_ast.Compound, c_ast.Assignment, c_ast.For]. -/
def isLoopBodyKind : CNode → Bool
  | .compound _ => true
  | .assignment _ _ _ => true
  | .forloop _ _ _ _ => true
  | _ => false

/-- type(x) in [c_ast.ArrayRef, c_ast.Constant, c_ast.ID, c_ast.BinaryOp]
(the _p_sources restriction). -/
def isSourceKind : CNode → Bool
  | .arrayref _ _ => true
  | .const _ _ => true
  | .id _ => true
  | .binop _ _ _ => true
  | _ => false

def isAssignNode : CNode → Bool
  | .assignment _ _ _ => true
  | _ => false

/-- type(finit) is c_ast.DeclList, where finit is the optional For.init
(None fails the test, as in Python). -/
def isDeclListO : Option CNode → Bool
  | some (.decllist _) => true
  | _ => false

/-- the .op attribute shared by BinaryOp, UnaryOp and Assignment; reading it
on any other node raises AttributeError. -/
def getOp : CNode → Except String String
  | .binop op _ _ => Except.ok op
  | .unop op _ => Except.ok op
  | .assignment op _ _ => Except.ok op
  | _ => Except.error "AttributeError"

/-- the .name of an ID node (grammar paths only read it off IDs). -/
def idName : CNode → String
  | .id nm => nm
  | _ => ""

/-- the value of a Constant node, through int(). -/
def constIntVal : CNode → Int
  | .const _ v => pyInt v
  | _ => 0

/-- Kernel.conv_ast_to_sym: identifiers, integer literals and +,-,*
binary operations to a symbolic expression; anything else raises. -/
def conv_ast_to_sym : CNode → Except String SymExpr
  | .id nm => Except.ok (SymExpr.sym nm)
  | .const _ v => Except.ok (SymExpr.int (pyInt v))
  | .binop op l r =>
    if op == "*" || op == "+" || op == "-" then do
      let ls ← conv_ast_to_sym l
      let rs ← conv_ast_to_sym r
      match op with
      | "*" => Except.ok (SymExpr.mul ls rs)
      | "+" => Except.ok (SymExpr.add ls rs)
      | _ => Except.ok (SymExpr.sub ls rs)
    else Except.error "KeyError"
  | _ => Except.error "AttributeError"

/-- Kernel._get_offsets on an ArrayRef: one Offset per dimension; the walk
goes outermost AST node (= rightmost source subscript) inward, and the
result is reversed at dim = 0 to yield source left-to-right order.
counters is [l[0] for l in self._loop_stack]. -/
def get_offsets (counters : List String) : CNode → Nat → Except String (List Offset)
  | .arrayref aname asub, dim => do
    echeck (isRefOrId aname = true)
      "array references must only be used with variables or other array references"
    echeck (isIdConstBinop asub = true)
      "array subscript must only contain variables or binary operations"
    let idxs ← (match asub with
      | .binop op (.id lname) (.const _ v) => do
          echeck (op = "+" ∨ op = "-")
            "binary operations in array subscript must by + or -"
          echeck (counters.contains lname = true)
            "varialbes used in array indices has to be a loop counter"
          let sign : Int := if op = "+" then 1 else -1
          Except.ok [Offset.rel lname (sign * pyInt v)]
      | .binop op _ _ => do
          echeck (op = "+" ∨ op = "-")
            "binary operations in array subscript must by + or -"
          Except.error
            "binary operation in array subscript may only have form variable plusminus constant"
      | .id sname => do
          echeck (counters.contains sname = true)
            "varialbes used in array indices has to be a loop counter"
          Except.ok [Offset.rel sname 0]
      | .const _ v => Except.ok [Offset.abs (pyInt v)]
      | _ => Except.error "unreachable")
    let rest ← (if isArrayRefNode aname then get_offsets counters aname (dim + 1)
      else Except.ok [])
    let all := idxs ++ rest
    Except.ok (if dim = 0 then all.reverse else all)
  | _, _ => Except.error "AttributeError"

/-- Kernel._get_basename: base variable name of a (possibly nested)
ArrayRef. -/
def get_basename : CNode → Except String String
  | .arrayref aname _ =>
    match aname with
    | .arrayref n2 s2 => get_basename (.arrayref n2 s2)
    | .id nm => Except.ok nm
    | _ => Except.error "AttributeError"
  | _ => Except.error "AttributeError"

/-- Kernel.set_variable.  The size argument is a tuple or None by type, so
the tuple assert of line 162 always passes here. -/
def set_variable (name : String) (ty : String)
    (size : Option (List SymExpr)) : KM Unit :=
  KM.check (dictContains datatypes_size ty = true)
    "only float and double variables are supported" >>= fun _ =>
  KM.getS >>= fun st =>
  (match st.datatype with
   | none => KM.modifyS (fun s => { s with datatype := some ty })
   | some dt =>
      KM.check (ty = dt) "mixing of datatypes within a kernel is not supported.") >>= fun _ =>
  KM.modifyS (fun s => { s with vars := dictInsert s.vars name (ty, size) })

/-- the name a set_constant argument denotes: a str, or a sympy.Symbol
(whose equality is by name). -/
inductive ConstKey where
  | strKey (s : String)
  | symKey (s : String)
  deriving DecidableEq, Repr

def ConstKey.nameOf : ConstKey → String
  | .strKey s => s
  | .symKey s => s

/-- Kernel.set_constant: both a string name and the symbol of that name key
the same Constant Binding entry (sympy.var(name) builds Symbol(name)). -/
def set_constant (name : ConstKey) (value : Int) (st : KernelState) :
    KernelState :=
  match name with
  | .symKey s => { st with constants := dictInsert st.constants s value }
  | .strKey s => { st with constants := dictInsert st.constants s value }

/-- current loop counter names, [l[0] for l in self._loop_stack]. -/
def countersOf (st : KernelState) : List String :=
  st.loop_stack.map (fun e => e.1)

/-- the message of the _p_sources kind assert. -/
def srcKindMsg : String :=
  "only references to arrays, constants and variables as well as binary operations are supported"

/-- Kernel._p_sources: walk an assignment right-hand side, registering array
and scalar reads as sources and tallying binary operators.  The kind assert
runs first on every node; each branch then handles its own kind, so the
per-constructor form below evaluates exactly as the source does. -/
def p_sources : CNode → KM Unit
  | .arrayref n s =>
      KM.check (isSourceKind (.arrayref n s) = true) srcKindMsg >>= fun _ =>
      KM.ofExcept (get_basename (.arrayref n s)) >>= fun bname =>
      KM.modifyS (fun st => { st with sources := dictSetdefault st.sources bname [] }) >>= fun _ =>
      KM.getS >>= fun st =>
      KM.ofExcept (get_offsets (countersOf st) (.arrayref n s) 0) >>= fun offs =>
      KM.modifyS (fun s2 => { s2 with sources := dictAppend s2.sources bname offs })
  | .id nm =>
      KM.check (isSourceKind (.id nm) = true) srcKindMsg >>= fun _ =>
      KM.modifyS (fun st =>
        { st with sources := dictAppend (dictSetdefault st.sources nm []) nm [Offset.dir] })
  | .binop op l r =>
      KM.check (isSourceKind (.binop op l r) = true) srcKindMsg >>= fun _ =>
      p_sources l >>= fun _ =>
      p_sources r >>= fun _ =>
      KM.modifyS (fun st =>
        { st with flops := dictInsert st.flops op (dictGetD st.flops op 0 + 1) })
  | other => KM.check (isSourceKind other = true) srcKindMsg

/-- Kernel._p_assignment: register the write (and, for compound operators,
the implied read and operation), then walk the right-hand side. -/
def p_assignment (stmt : CNode) : KM Unit :=
  KM.check (isAssignNode stmt = true)
    "Only assignment statements are allowed in loops." >>= fun _ =>
  match stmt with
  | .assignment op lv rv =>
      KM.check (isRefOrId lv = true)
        "Only assignment to array element or varialbe is allowed." >>= fun _ =>
      (if op ≠ "=" then
        KM.modifyS (fun st =>
          { st with flops := dictInsert st.flops (stripEq op) (dictGetD st.flops (stripEq op) 0 + 1) })
      else Pure.pure ()) >>= fun _ =>
      (match lv with
       | .arrayref n s =>
          KM.ofExcept (get_basename (.arrayref n s)) >>= fun bn =>
          KM.modifyS (fun st =>
            { st with destinations := dictSetdefault st.destinations bn [] }) >>= fun _ =>
          KM.getS >>= fun st =>
          KM.ofExcept (get_offsets (countersOf st) (.arrayref n s) 0) >>= fun offs =>
          KM.modifyS (fun s2 =>
            { s2 with destinations := dictAppend s2.destinations bn offs }) >>= fun _ =>
          (if op ≠ "=" then
            KM.ofExcept (get_basename (.arrayref n s)) >>= fun bn2 =>
            KM.modifyS (fun st2 =>
              { st2 with sources := dictSetdefault st2.sources bn2 [] }) >>= fun _ =>
            KM.getS >>= fun stb =>
            KM.ofExcept (get_offsets (countersOf stb) (.arrayref n s) 0) >>= fun offs2 =>
            KM.modifyS (fun s3 =>
              { s3 with sources := dictAppend s3.sources bn2 offs2 })
          else Pure.pure ())
       | .id nm =>
          KM.modifyS (fun st =>
            { st with destinations :=
                dictAppend (dictSetdefault st.destinations nm []) nm [Offset.dir] }) >>= fun _ =>
          (if op ≠ "=" then
            KM.modifyS (fun st =>
              { st with sources :=
                  dictAppend (dictSetdefault st.sources nm []) nm [Offset.dir] })
          else Pure.pure ())
       | _ => Pure.pure ()) >>= fun _ =>
      p_sources rv
  | _ => Pure.pure ()

/-- the loop of line 341-342: process each statement of a compound loop body
as an assignment, in order, stopping at the first failure. -/
def p_assignments : List CNode → KM Unit
  | [] => Pure.pure ()
  | x :: xs => p_assignment x >>= fun _ => p_assignments xs

/-- the pure prefix of Kernel._p_for (lines 278-328): all shape checks on
the loop header plus computation of the Loop Nest Entry to push. -/
def forHeader (floop : CNode) : Except String (String × SymExpr × SymExpr × Int) := do
  echeck (isFor floop = true) "May only be a for loop"
  match floop with
  | .forloop finit fcond fnext fstmt => do
    echeck (isDeclListO finit = true) "Initialization of loops need to be declarations."
    match finit with
    | some (.decllist decls) => do
      echeck (decls.length = 1) "Only single declaration is allowed in init. of loop."
      match decls with
      | [.decl dname _ _ _ _ dinit _] => do
        let cop ← getOp fcond
        echeck (cop = "<") "only lt (<) is allowed as loop condition"
        match fcond with
        | .binop _ cleft cright => do
          echeck (isId cleft = true) "left of cond. operand has to be a variable"
          echeck (isConstIdBinop cright = true)
            "right of cond. operand has to be a constant, a variable or a binary operation"
          echeck (isUnopOrAssign fnext = true)
            "next statement has to be a unary or assignment operation"
          let nop ← getOp fnext
          echeck (nop = "++" ∨ nop = "p++" ∨ nop = "+=")
            "only ++ and += next operations are allowed"
          echeck (isLoopBodyKind fstmt = true)
            "the inner loop may contain only assignments or compounds of assignments"
          let iter_max ← (match cright with
            | .id cname => Except.ok (SymExpr.sym cname)
            | .const _ v => Except.ok (SymExpr.int (pyInt v))
            | .binop bop bl br => do
                echeck (isId bl = true) "left of operator has to be a variable"
                echeck (isConst br = true) "right of operator has to be a constant"
                echeck (bop = "+" ∨ bop = "-")
                  "only plus (+) and minus (-) are accepted operators"
                conv_ast_to_sym (.binop bop bl br)
            | _ => Except.error "unreachable")
          let iter_min ← (match dinit with
            | some ini => conv_ast_to_sym ini
            | none => Except.error "AttributeError")
          let step_size ← (match fnext with
            | .assignment _ nlv nrv => do
                echeck (isId nlv = true) "next operation may only act on loop counter"
                echeck (isConst nrv = true) "only constant increments are allowed"
                echeck (idName nlv = idName cleft ∧ idName cleft = dname)
                  "initial, condition and next statement of for loop must act on same loop counter variable"
                Except.ok (constIntVal nrv)
            | .unop _ nexpr => do
                echeck (isId nexpr = true) "next operation may only act on loop counter"
                echeck (idName nexpr = idName cleft ∧ idName cleft = dname)
                  "initial, condition and next statement of for loop must act on same loop counter variable"
                Except.ok (1 : Int)
            | _ => Except.error "unreachable")
          Except.ok (dname, iter_min, iter_max, step_size)
        | _ => Except.error "AttributeError"
      | _ => Except.error "IndexError"
    | _ => Except.error "unreachable"
  | _ => Except.error "unreachable"

/-- push one Loop Nest Entry (the append of line 325-328). -/
def pushLoop (entry : String × SymExpr × SymExpr × Int) : KM Unit :=
  KM.modifyS (fun st => { st with loop_stack := st.loop_stack ++ [entry] })

/-- Kernel._p_for: validate the loop header, push the Loop Nest Entry onto
the Loop Stack, then descend: directly nested loop, loop as sole statement
of a compound, single assignment, or compound of assignments.  The patterns
below reproduce the elif chain of lines 332-342 after the common header
handling; each branch starts with the same header validation and push. -/
def p_for : CNode → KM Unit
  | .forloop fi fc fn (.forloop a b c d) =>
      KM.ofExcept (forHeader (.forloop fi fc fn (.forloop a b c d))) >>= fun entry =>
      pushLoop entry >>= fun _ =>
      p_for (.forloop a b c d)
  | .forloop fi fc fn (.compound [.forloop a b c d]) =>
      KM.ofExcept (forHeader (.forloop fi fc fn (.compound [.forloop a b c d]))) >>= fun entry =>
      pushLoop entry >>= fun _ =>
      p_for (.forloop a b c d)
  | .forloop fi fc fn (.compound items) =>
      KM.ofExcept (forHeader (.forloop fi fc fn (.compound items))) >>= fun entry =>
      pushLoop entry >>= fun _ =>
      p_assignments items
  | .forloop fi fc fn (.assignment o l r) =>
      KM.ofExcept (forHeader (.forloop fi fc fn (.assignment o l r))) >>= fun entry =>
      pushLoop entry >>= fun _ =>
      p_assignment (.assignment o l r)
  | .forloop fi fc fn other =>
      KM.ofExcept (forHeader (.forloop fi fc fn other)) >>= fun entry =>
      pushLoop entry >>= fun _ =>
      KM.fail "AttributeError"
  | other =>
      KM.ofExcept (forHeader other) >>= fun _ => Pure.pure ()

/-- the per-declaration extraction of Kernel._process_code lines 180-194:
yields (name, element type, shape) or the first raised violation. -/
def declTypeSize (item : CNode) : Except String (String × String × Option (List SymExpr)) :=
  match item with
  | .decl dname _ _ _ dtype _ _ =>
    if isArrayDeclNode dtype then do
      let dims ← collectSymDims dtype
      match arrayElemType dtype with
      | some names => do
          echeck (names.length = 1) "only single types are supported"
          Except.ok (dname, names.headD "", some dims)
      | none => Except.error "AttributeError"
    else
      match dtype with
      | .typedecl _ _ (.identifiertype names) => do
          echeck (names.length = 1) "only single types are supported"
          Except.ok (dname, names.headD "", none)
      | _ => Except.error "AttributeError"
  | _ => Except.error "AttributeError"
where
  /-- the while loop of lines 183-187: collect dims outer-first, converting
  each to a symbolic expression as it is collected. -/
  collectSymDims : CNode → Except String (List SymExpr)
    | .arraydecl t d => do
        let ds ← conv_ast_to_sym d
        let rest ← collectSymDims t
        Except.ok (ds :: rest)
    | _ => Except.ok []
  /-- t.type.names after the while loop: the IdentifierType names of the
  innermost TypeDecl. -/
  arrayElemType : CNode → Option (List String)
    | .arraydecl t _ => arrayElemType t
    | .typedecl _ _ (.identifiertype names) => some names
    | _ => none

/-- the declaration loop of Kernel._process_code (lines 179-194). -/
def processDecls : List CNode → KM Unit
  | [] => Pure.pure ()
  | d :: rest =>
      KM.ofExcept (declTypeSize d) >>= fun r =>
      set_variable r.1 r.2.1 r.2.2 >>= fun _ =>
      processDecls rest

/-- Kernel._process_code: shape-check the body, register Variables from the
declaration prefix, then analyze the terminal loop. -/
def process_code : KM Unit :=
  KM.getS >>= fun st =>
  KM.check (isCompound st.kernel_ast = true) "Kernel has to be a compound statement" >>= fun _ =>
  match st.kernel_ast with
  | .compound items =>
      KM.check ((items.dropLast.all isDecl) = true)
        "all statments befor the for loop need to be declarations" >>= fun _ =>
      (match items.getLast? with
       | none => KM.fail "IndexError"
       | some lastItem =>
          KM.check (isFor lastItem = true)
            "last statment in kernel code must be a loop" >>= fun _ =>
          processDecls items.dropLast >>= fun _ =>
          p_for lastItem)
  | _ => Pure.pure ()

/-- the fresh state Kernel.__init__ builds before clear_state and
_process_code run (the parser handoff ext[0].body is the Compound ast). -/
def initState (ast : CNode) : KernelState :=
  { kernel_ast := ast, loop_stack := [], vars := [], sources := [],
    destinations := [], flops := [], datatype := none, constants := [] }

/-- Kernel.__init__ observed from the caller: on success a fully analyzed
Kernel, on a violation the exception alone -- the partially mutated object
never escapes the constructor. -/
def newKernel (ast : CNode) : Except String KernelState :=
  match process_code (initState ast) with
  | (Except.ok _, st) => Except.ok st
  | (Except.error e, _) => Except.error e

/- ### Structural equality on CNode
(deriving DecidableEq is unavailable for this nested inductive, so the
Boolean equality is spelled out; pyIndex and occurs use it). -/

mutual

def beqC : CNode → CNode → Bool
  | .id a, .id b => a == b
  | .const a b, .const c d => a == c && b == d
  | .binop o1 l1 r1, .binop o2 l2 r2 => o1 == o2 && beqC l1 l2 && beqC r1 r2
  | .unop o1 e1, .unop o2 e2 => o1 == o2 && beqC e1 e2
  | .arrayref n1 s1, .arrayref n2 s2 => beqC n1 n2 && beqC s1 s2
  | .assignment o1 l1 r1, .assignment o2 l2 r2 => o1 == o2 && beqC l1 l2 && beqC r1 r2
  | .funccall n1 a1, .funccall n2 a2 => beqC n1 n2 && beqO a1 a2
  | .exprlist e1, .exprlist e2 => beqL e1 e2
  | .identifiertype n1, .identifiertype n2 => n1 == n2
  | .typedecl d1 q1 t1, .typedecl d2 q2 t2 => d1 == d2 && q1 == q2 && beqC t1 t2
  | .arraydecl t1 d1, .arraydecl t2 d2 => beqC t1 t2 && beqC d1 d2
  | .ptrdecl q1 t1, .ptrdecl q2 t2 => q1 == q2 && beqC t1 t2
  | .typename n1 q1 t1, .typename n2 q2 t2 => n1 == n2 && q1 == q2 && beqC t1 t2
  | .funcdecl a1 t1, .funcdecl a2 t2 => beqO a1 a2 && beqC t1 t2
  | .decl n1 q1 s1 f1 t1 i1 b1, .decl n2 q2 s2 f2 t2 i2 b2 =>
      n1 == n2 && q1 == q2 && s1 == s2 && f1 == f2 && beqC t1 t2 && beqO i1 i2 && beqO b1 b2
  | .decllist d1, .decllist d2 => beqL d1 d2
  | .forloop i1 c1 n1 s1, .forloop i2 c2 n2 s2 =>
      beqO i1 i2 && beqC c1 c2 && beqC n1 n2 && beqC s1 s2
  | .ifstmt c1 t1 e1, .ifstmt c2 t2 e2 => beqC c1 c2 && beqC t1 t2 && beqO e1 e2
  | .compound i1, .compound i2 => beqL i1 i2
  | .funcdef d1 p1 b1, .funcdef d2 p2 b2 => beqC d1 d2 && beqO p1 p2 && beqC b1 b2
  | .paramlist p1, .paramlist p2 => beqL p1 p2
  | .fileast e1, .fileast e2 => beqL e1 e2
  | _, _ => false

def beqL : List CNode → List CNode → Bool
  | [], [] => true
  | x :: xs, y :: ys => beqC x y && beqL xs ys
  | _, _ => false

def beqO : Option CNode → Option CNode → Bool
  | none, none => true
  | some x, some y => beqC x y
  | _, _ => false

end

/-- Python list.index (used as ast.block_items.index(d) in as_code): the
objects indexed are pairwise structurally distinct declarations, for which
Python identity comparison and structural comparison agree. -/
def pyIndex (l : List CNode) (x : CNode) : Except String Nat :=
  match l.findIdx? (fun y => beqC y x) with
  | some i => Except.ok i
  | none => Except.error "ValueError"

/- ### Dimensional flattening transform -/

/-- the while loop of trasform_multidim_to_1d_decl: dims outer-first and the
first non-ArrayDecl inner type node. -/
def collectDims : CNode → List CNode × CNode
  | .arraydecl t d =>
      let r := collectDims t
      (d :: r.1, r.2)
  | t => ([], t)

/-- Python reduce(lambda l, r: BinaryOp(op, l, r), list): a left fold; the
empty list raises TypeError. -/
def reduceBinop (op : String) : List CNode → Except String CNode
  | [] => Except.error "TypeError"
  | x :: xs => Except.ok (xs.foldl (fun l r => .binop op l r) x)

/-- trasform_multidim_to_1d_decl (spelling as in the source): returns
((name, dims), rewritten declaration); scalars pass through unchanged. -/
def trasform_multidim_to_1d_decl (d : CNode) : (String × List CNode) × CNode :=
  match d with
  | .decl nm q stor fs ty ini bs =>
      let r := collectDims ty
      match r.1 with
      | [] => ((nm, []), .decl nm q stor fs ty ini bs)
      | d0 :: rest =>
          ((nm, d0 :: rest),
            .decl nm q stor fs
              (.arraydecl r.2 (rest.foldl (fun l rr => .binop "*" l rr) d0)) ini bs)
  | other => (("", []), other)

/-- transform_array_decl_to_malloc: a (flattened) array declaration becomes
a pointer declaration initialized by aligned_malloc(sizeof(type) * dim, 32);
non-array declarations are returned unchanged (the early return of line 91).
The inner type is a TypeDecl for every declaration the analyzer accepts. -/
def transform_array_decl_to_malloc (d : CNode) : CNode :=
  match d with
  | .decl nm q stor fs (.arraydecl (.typedecl tdn tdq tty) dim) _ bs =>
      .decl nm q stor fs (.ptrdecl [] (.typedecl tdn tdq tty))
        (some (.funccall (.id "aligned_malloc") (some (.exprlist [
          .binop "*" (.unop "sizeof" (.typename none [] (.typedecl none [] tty))) dim,
          .const "int" "32"]))))
        bs
  | other => other

/-- the while loop of transform_multidim_to_1d_ref: subscripts collected
outermost AST node first (so rightmost source dimension first) plus the
base node left when the ArrayRef chain ends. -/
def collectRefChain : CNode → List CNode × CNode
  | .arrayref nm sub =>
      let r := collectRefChain nm
      (sub :: r.1, r.2)
  | other => ([], other)

/-- the Python slice dimension_dict[name][-1:-i-1:-1]: the last i declared
dimensions, innermost first (shorter when fewer are available). -/
def sliceRevTake (l : List CNode) (i : Nat) : List CNode := l.reverse.take i

/-- the enumerate loop of transform_multidim_to_1d_ref building
subscript_list: element 0 is kept as is, element i is multiplied by the
product of the last i declared dimensions of the base variable. -/
def buildSubAux (dd : List (String × List CNode)) (base : CNode) :
    List CNode → Nat → Except String (List CNode)
  | [], _ => Except.ok []
  | d :: rest, i => do
      let head ← (if i = 0 then Except.ok d else
        match base with
        | .id bnm =>
          (match dd.find? (fun p => p.1 == bnm) with
           | some p => do
               let m ← reduceBinop "*" (sliceRevTake p.2 i)
               Except.ok (.binop "*" d m)
           | none => Except.error "KeyError")
        | _ => Except.error "AttributeError")
      let tail ← buildSubAux dd base rest (i + 1)
      Except.ok (head :: tail)

/-- transform_multidim_to_1d_ref: rewrite a (possibly nested) ArrayRef into
a single ArrayRef of the base with the flat row-major index expression. -/
def transform_multidim_to_1d_ref (aref : CNode)
    (dd : List (String × List CNode)) : Except String CNode :=
  match aref with
  | .arrayref nm0 sub0 => do
      let c := collectRefChain (.arrayref nm0 sub0)
      let subs ← buildSubAux dd c.2 c.1 0
      let newSub ← reduceBinop "+" subs
      Except.ok (.arrayref c.2 newSub)
  | other => Except.ok other

/- replace every maximal ArrayRef in the tree by its flattened form: this is
find_array_references (which returns a node as soon as it is an ArrayRef,
without descending into it) followed by the in-place map of
transform_multidim_to_1d_ref over the collected references. -/

mutual

def transformRefs (dd : List (String × List CNode)) : CNode → Except String CNode
  | .arrayref nm sub => transform_multidim_to_1d_ref (.arrayref nm sub) dd
  | .id nm => Except.ok (.id nm)
  | .const t v => Except.ok (.const t v)
  | .binop op l r => do
      let l2 ← transformRefs dd l
      let r2 ← transformRefs dd r
      Except.ok (.binop op l2 r2)
  | .unop op e => do
      let e2 ← transformRefs dd e
      Except.ok (.unop op e2)
  | .assignment op l r => do
      let l2 ← transformRefs dd l
      let r2 ← transformRefs dd r
      Except.ok (.assignment op l2 r2)
  | .funccall n a => do
      let n2 ← transformRefs dd n
      let a2 ← transformRefsO dd a
      Except.ok (.funccall n2 a2)
  | .exprlist es => do
      let es2 ← transformRefsL dd es
      Except.ok (.exprlist es2)
  | .identifiertype names => Except.ok (.identifiertype names)
  | .typedecl dn q t => do
      let t2 ← transformRefs dd t
      Except.ok (.typedecl dn q t2)
  | .arraydecl t d => do
      let t2 ← transformRefs dd t
      let d2 ← transformRefs dd d
      Except.ok (.arraydecl t2 d2)
  | .ptrdecl q t => do
      let t2 ← transformRefs dd t
      Except.ok (.ptrdecl q t2)
  | .typename n q t => do
      let t2 ← transformRefs dd t
      Except.ok (.typename n q t2)
  | .funcdecl a t => do
      let a2 ← transformRefsO dd a
      let t2 ← transformRefs dd t
      Except.ok (.funcdecl a2 t2)
  | .decl nm q s f t i b => do
      let t2 ← transformRefs dd t
      let i2 ← transformRefsO dd i
      let b2 ← transformRefsO dd b
      Except.ok (.decl nm q s f t2 i2 b2)
  | .decllist ds => do
      let ds2 ← transformRefsL dd ds
      Except.ok (.decllist ds2)
  | .forloop i c n s => do
      let i2 ← transformRefsO dd i
      let c2 ← transformRefs dd c
      let n2 ← transformRefs dd n
      let s2 ← transformRefs dd s
      Except.ok (.forloop i2 c2 n2 s2)
  | .ifstmt c t e => do
      let c2 ← transformRefs dd c
      let t2 ← transformRefs dd t
      let e2 ← transformRefsO dd e
      Except.ok (.ifstmt c2 t2 e2)
  | .compound is => do
      let is2 ← transformRefsL dd is
      Except.ok (.compound is2)
  | .funcdef d p b => do
      let d2 ← transformRefs dd d
      let p2 ← transformRefsO dd p
      let b2 ← transformRefs dd b
      Except.ok (.funcdef d2 p2 b2)
  | .paramlist ps => do
      let ps2 ← transformRefsL dd ps
      Except.ok (.paramlist ps2)
  | .fileast es => do
      let es2 ← transformRefsL dd es
      Except.ok (.fileast es2)

def transformRefsL (dd : List (String × List CNode)) :
    List CNode → Except String (List CNode)
  | [] => Except.ok []
  | x :: xs => do
      let y ← transformRefs dd x
      let ys ← transformRefsL dd xs
      Except.ok (y :: ys)

def transformRefsO (dd : List (String × List CNode)) :
    Option CNode → Except String (Option CNode)
  | none => Except.ok none
  | some x => do
      let y ← transformRefs dd x
      Except.ok (some y)

end

/- ### Benchmark code synthesizer (Kernel.as_code) -/

/-- Python chr(c) for the candidate loop counter codes. -/
def codeToName (c : Nat) : String := String.mk [Char.ofNat c]

/-- the while loop of lines 464-466: starting at chr(105) = i, advance to
the next character code while the candidate names a declared variable.  The
loop can iterate at most once per (distinct, single character) key, so fuel
keys.length + 1 always suffices. -/
def freshNameAux : Nat → List String → Nat → String
  | 0, _, c => codeToName c
  | fuel + 1, keys, c =>
      if keys.contains (codeToName c) then freshNameAux fuel keys (c + 1)
      else codeToName c

/-- the counter name chosen for an array initialization loop, given the
keys of the array_dimensions dict (all declared variable names). -/
def initCounterName (keys : List String) : String :=
  freshNameAux (keys.length + 1) keys 105

/-- the declaration synthesized for one bound Symbolic Constant (lines
435-444): const int name = atoi(argv[argIdx]). -/
def mkConstDecl (name : String) (argIdx : Nat) : CNode :=
  .decl name ["const"] [] []
    (.typedecl (some name) ["const"] (.identifiertype ["int"]))
    (some (.funccall (.id "atoi") (some (.exprlist
      [.arrayref (.id "argv") (.const "int" (toString argIdx))])))) none

/-- the constants loop of lines 433-444: each constant declaration is
inserted at position 0, with argv subscripts counting up from 1 in dict
iteration (= insertion) order. -/
def insertConstDecls : List (String × Int) → Nat → List CNode → List CNode
  | [], _, items => items
  | (k, _) :: rest, i, items => insertConstDecls rest (i + 1) (mkConstDecl k i :: items)

def declNameOf : CNode → String
  | .decl nm _ _ _ _ _ _ => nm
  | _ => ""

/-- the initialization loop synthesized for an array (lines 463-491). -/
def mkInitFor (counter dnm : String) (dims : List CNode) : Except String CNode := do
  let prod ← reduceBinop "*" dims
  Except.ok (.forloop
    (some (.decllist [.decl counter [] [] []
      (.typedecl (some counter) [] (.identifiertype ["int"]))
      (some (.const "int" "0")) none]))
    (.binop "<" (.id counter) prod)
    (.unop "++" (.id counter))
    (.assignment "=" (.arrayref (.id dnm) (.id counter)) (.const "float" "0.23")))

/-- the dummy anti-dead-code guard (lines 495-502 and 510-517): an array is
passed directly, a scalar by address. -/
def mkDummyIf (isArr : Bool) (nm : String) : CNode :=
  .ifstmt (.id "var_false")
    (.compound [.funccall (.id "dummy")
      (some (.exprlist [if isArr then .id nm else .unop "&" (.id nm)]))])
    none

/-- the injection loop of lines 455-517: after each declaration insert its
initialization (loop or assignment) and its dummy guard. -/
def injectInits (dimDict : List (String × List CNode)) :
    List CNode → List CNode → Except String (List CNode)
  | [], items => Except.ok items
  | d :: rest, items => do
      let i ← pyIndex items d
      let dims := dictGetD dimDict (declNameOf d) []
      if dims.isEmpty then do
        let a1 := pyInsert items ((i : Int) + 1)
          (.assignment "=" (.id (declNameOf d)) (.const "float" "0.23"))
        let a2 := pyInsert a1 ((i : Int) + 2) (mkDummyIf false (declNameOf d))
        injectInits dimDict rest a2
      else do
        let counter := initCounterName (dimDict.map (fun p => p.1))
        let floop ← mkInitFor counter (declNameOf d) dims
        let a1 := pyInsert items ((i : Int) + 1) floop
        let a2 := pyInsert a1 ((i : Int) + 2) (mkDummyIf true (declNameOf d))
        injectInits dimDict rest a2

/-- the repeat-count declaration of lines 550-558:
const int repeat = atoi(argv[number of constants + 1]). -/
def mkRepeatDecl (argIdx : Nat) : CNode :=
  .decl "repeat" ["const"] [] []
    (.typedecl (some "repeat") [] (.identifiertype ["int"]))
    (some (.funccall (.id "atoi") (some (.exprlist
      [.arrayref (.id "argv") (.const "int" (toString argIdx))])))) none

/-- the instrumentation block of lines 523-568: marker start before the
kernel loop, repeat declaration, the kernel loop rewrapped in a countdown
loop together with fresh dummy guards, then marker stop. -/
def likwidBlock (nConsts : Nat) (dimDict : List (String × List CNode))
    (declarations : List CNode) (items : List CNode) : Except String (List CNode) := do
  let i1 := pyInsert items (-2) (.funccall (.id "likwid_markerStartRegion")
    (some (.exprlist [.const "string" "\"loop\""])))
  let dummies := declarations.map (fun d =>
    mkDummyIf (!(dictGetD dimDict (declNameOf d) []).isEmpty) (declNameOf d))
  let i2 := pyInsert i1 (-3) (mkRepeatDecl (nConsts + 1))
  match pyPop i2 (-2) with
  | none => Except.error "IndexError"
  | some (popped, i3) => do
      let cond := CNode.binop ">" (.id "repeat") (.const "int" "0")
      let nxt := CNode.unop "--" (.id "repeat")
      let stmt := CNode.compound (popped :: dummies)
      let i4 := pyInsert i3 (-1) (.forloop none cond nxt stmt)
      let i5 := pyInsert i4 (-1) (.funccall (.id "likwid_markerStopRegion")
        (some (.exprlist [.const "string" "\"loop\""])))
      Except.ok i5

/-- lines 570-595: embed the Compound into main(argc, argv), wrap in a
FileAST and prepend the dummy and var_false external declarations. -/
def mkMainAst (items : List CNode) : CNode :=
  let mainDecl := CNode.decl "main" [] [] []
    (.funcdecl (some (.paramlist [
      .typename none [] (.typedecl (some "argc") [] (.identifiertype ["int"])),
      .typename none [] (.ptrdecl [] (.ptrdecl []
        (.typedecl (some "argv") [] (.identifiertype ["char"]))))]))
      (.typedecl (some "main") [] (.identifiertype ["int"]))) none none
  let fdef := CNode.funcdef mainDecl none (.compound items)
  let dummyDecl := CNode.decl "dummy" [] [] []
    (.funcdecl (some (.paramlist [
      .typename none [] (.ptrdecl [] (.typedecl none [] (.identifiertype ["double"])))]))
      (.typedecl (some "dummy") [] (.identifiertype ["void"]))) none none
  let varFalseDecl := CNode.decl "var_false" [] ["extern"] []
    (.typedecl (some "var_false") [] (.identifiertype ["int"])) none none
  .fileast [dummyDecl, varFalseDecl, fdef]

/-- Kernel.as_code: rewrite a copy of the kernel AST into a standalone
compilable translation unit.  type_ is iaca (plain) or likwid
(instrumented).  The textual rendering (CGenerator and the #include lines)
is delegated to the out-of-scope printer and not modelled; the result here
is the final FileAST. -/
def as_code (type_ : String) (st : KernelState) : Except String CNode := do
  match st.kernel_ast with
  | .compound items0 => do
      let declsOrig := items0.filter isDecl
      let dimDict := declsOrig.foldl (fun acc d =>
        dictInsert acc (trasform_multidim_to_1d_decl d).1.1
          (trasform_multidim_to_1d_decl d).1.2) []
      let items1 := items0.map (fun it =>
        if isDecl it then transform_array_decl_to_malloc (trasform_multidim_to_1d_decl it).2
        else it)
      let declarations := declsOrig.map (fun d =>
        transform_array_decl_to_malloc (trasform_multidim_to_1d_decl d).2)
      let items2 := insertConstDecls st.constants 1 items1
      let items3 := if type_ == "likwid" then
          CNode.funccall (.id "likwid_markerInit") none ::
          CNode.funccall (.id "likwid_markerThreadInit") none ::
          (items2 ++ [CNode.funccall (.id "likwid_markerClose") none])
        else items2
      let items4 ← injectInits dimDict declarations items3
      let items5 ← transformRefsL dimDict items4
      let items6 ← (if type_ == "likwid" then
          likwidBlock st.constants.length dimDict declarations items5
        else Except.ok items5)
      Except.ok (mkMainAst items6)
  | _ => Except.error "AttributeError"

/-- Kernel.as_code as a method call on the Kernel object: the method reads
self but performs every rewrite on a deep copy of the AST (line 424), so
self is returned unchanged. -/
def as_code_method (type_ : String) : KM CNode := fun st => (as_code type_ st, st)

/- ### Specification-side definitions used to state the claims -/

/- deep occurrence of a node in a generated tree (structurally). -/

mutual

def occurs (x : CNode) : CNode → Bool
  | .id nm => beqC x (.id nm)
  | .const t v => beqC x (.const t v)
  | .binop op l r => beqC x (.binop op l r) || occurs x l || occurs x r
  | .unop op e => beqC x (.unop op e) || occurs x e
  | .arrayref n s => beqC x (.arrayref n s) || occurs x n || occurs x s
  | .assignment op l r => beqC x (.assignment op l r) || occurs x l || occurs x r
  | .funccall n a => beqC x (.funccall n a) || occurs x n || occursO x a
  | .exprlist es => beqC x (.exprlist es) || occursL x es
  | .identifiertype ns => beqC x (.identifiertype ns)
  | .typedecl dn q t => beqC x (.typedecl dn q t) || occurs x t
  | .arraydecl t d => beqC x (.arraydecl t d) || occurs x t || occurs x d
  | .ptrdecl q t => beqC x (.ptrdecl q t) || occurs x t
  | .typename n q t => beqC x (.typename n q t) || occurs x t
  | .funcdecl a t => beqC x (.funcdecl a t) || occursO x a || occurs x t
  | .decl nm q s f t i b =>
      beqC x (.decl nm q s f t i b) || occurs x t || occursO x i || occursO x b
  | .decllist ds => beqC x (.decllist ds) || occursL x ds
  | .forloop i c n s =>
      beqC x (.forloop i c n s) || occursO x i || occurs x c || occurs x n || occurs x s
  | .ifstmt c t e => beqC x (.ifstmt c t e) || occurs x c || occurs x t || occursO x e
  | .compound is => beqC x (.compound is) || occursL x is
  | .funcdef d p b => beqC x (.funcdef d p b) || occurs x d || occursO x p || occurs x b
  | .paramlist ps => beqC x (.paramlist ps) || occursL x ps
  | .fileast es => beqC x (.fileast es) || occursL x es

def occursL (x : CNode) : List CNode → Bool
  | [] => false
  | t :: ts => occurs x t || occursL x ts

def occursO (x : CNode) : Option CNode → Bool
  | none => false
  | some t => occurs x t

end

/-- sizeof of the two supported element types, in bytes. -/
def sizeofVal (ty : String) : Int := (dictGetD datatypes_size ty 0 : Nat)

/-- integer meaning of the expression nodes appearing in subscripts,
dimensions and allocation sizes, under a valuation of identifiers; a
sizeof(type) node means the byte size of the element type. -/
def ceval (rho : String → Int) : CNode → Int
  | .id nm => rho nm
  | .const _ v => pyInt v
  | .binop "+" l r => ceval rho l + ceval rho r
  | .binop "-" l r => ceval rho l - ceval rho r
  | .binop "*" l r => ceval rho l * ceval rho r
  | .unop "sizeof" (.typename _ _ (.typedecl _ _ (.identifiertype [t]))) => sizeofVal t
  | _ => 0

def listProd : List Int → Int
  | [] => 1
  | x :: xs => x * listProd xs

/-- the row-major flat index stated by the spec: with subscripts s_0..s_N-1
(outer to inner) and dimension sizes d_0..d_N-1, the index is
s_0 * (d_1 * .. * d_N-1) + s_1 * (d_2 * .. * d_N-1) + .. + s_N-1. -/
def flatIdx : List Int → List Int → Int
  | [], _ => 0
  | s :: ss, ds => s * listProd (ds.drop 1) + flatIdx ss (ds.drop 1)

/-- Horner-style helper: sumHorner [v0, v1, ..] [e0, e1, ..] is
v0 + e0 * (v1 + e1 * (..)), i.e. the sum of v_j times the product of the
first j elements of the e list. -/
def sumHorner : List Int → List Int → Int
  | [], _ => 0
  | v :: vs, [] => v + sumHorner vs []
  | v :: vs, e :: es => v + e * sumHorner vs es

/-- the nesting depth of for constructs in a kernel loop: a nested loop
counts whether it is the loop body itself or the sole statement of a
compound block (the spec and claim C6 wording). -/
def nestDepth : CNode → Nat
  | .forloop _ _ _ (.forloop a b c d) => 1 + nestDepth (.forloop a b c d)
  | .forloop _ _ _ (.compound [.forloop a b c d]) => 1 + nestDepth (.forloop a b c d)
  | .forloop _ _ _ _ => 1
  | _ => 0

/-- total nesting depth of for constructs present in a kernel body
(declarations contribute zero). -/
def kernelNestDepth : CNode → Nat
  | .compound items => (items.map nestDepth).sum
  | _ => 0

/-- the N-dimensional reference name[s_0][s_1]..[s_N-1], subscripts given
outer to inner. -/
def buildRef (name : String) (ss : List CNode) : CNode :=
  ss.foldl (fun acc s => .arrayref acc s) (.id name)

/-- the N-dimensional declaration ty name[d_0][d_1]..[d_N-1], dimensions
given outer to inner. -/
def mkArrayDeclN (nm ty : String) (dims : List CNode) : CNode :=
  .decl nm [] [] []
    (dims.foldr (fun d acc => .arraydecl acc d)
      (.typedecl (some nm) [] (.identifiertype [ty]))) none none

/- ### General lemmas about the dict model -/

theorem find_none_of_not_contains {α : Type} (d : List (String × α)) (k : String)
    (h : dictContains d k = false) : d.find? (fun p => p.1 == k) = none := by
  induction d with
  | nil => rfl
  | cons p rest ih =>
      simp only [dictContains, List.any_cons, Bool.or_eq_false_iff] at h
      simp only [List.find?, h.1]
      exact ih (by simp only [dictContains]; exact h.2)

theorem mapInsert_find {α : Type} (d : List (String × α)) (k : String) (v : α) :
    (d.map (fun p => if p.1 == k then (k, v) else p)).find? (fun p => p.1 == k) =
      if dictContains d k then some (k, v) else none := by
  induction d with
  | nil => rfl
  | cons p rest ih =>
      cases hb : (p.1 == k) with
      | true =>
          simp only [List.map_cons, hb, if_true, dictContains, List.any_cons,
            Bool.true_or]
          simp [List.find?]
      | false =>
          simp only [List.map_cons, hb, Bool.false_eq_true, if_false, dictContains,
            List.any_cons, Bool.false_or]
          simp only [List.find?, hb]
          simpa only [dictContains] using ih

theorem dictInsert_find {α : Type} (d : List (String × α)) (k : String) (v : α) :
    (dictInsert d k v).find? (fun p => p.1 == k) = some (k, v) := by
  by_cases h : dictContains d k = true
  · simp only [dictInsert, h, if_true]
    rw [mapInsert_find, if_pos h]
  · have h2 : dictContains d k = false := by simpa using h
    simp only [dictInsert, h2, Bool.false_eq_true, if_false]
    induction d with
    | nil => simp [List.find?]
    | cons p rest ih =>
        simp only [dictContains, List.any_cons, Bool.or_eq_false_iff] at h2
        simp only [List.cons_append, List.find?, h2.1]
        exact ih (by simp [dictContains, h2.2]) (by simp [dictContains, h2.2])

theorem mapInsert_countP {α : Type} (d : List (String × α)) (k : String) (v : α) :
    (d.map (fun p => if p.1 == k then (k, v) else p)).countP (fun p => p.1 == k) =
      d.countP (fun p => p.1 == k) := by
  induction d with
  | nil => rfl
  | cons p rest ih =>
      cases hb : (p.1 == k) with
      | true =>
          simp only [List.map_cons, hb, if_true, List.countP_cons, ih]
          simp
      | false =>
          simp only [List.map_cons, hb, Bool.false_eq_true, if_false,
            List.countP_cons, ih, hb]

theorem dictInsert_countP {α : Type} (d : List (String × α)) (k : String) (v : α) :
    (dictInsert d k v).countP (fun p => p.1 == k) =
      if dictContains d k then d.countP (fun p => p.1 == k)
      else d.countP (fun p => p.1 == k) + 1 := by
  by_cases h : dictContains d k = true
  · simp only [dictInsert, h, if_true, mapInsert_countP]
  · have h2 : dictContains d k = false := by simpa using h
    simp [dictInsert, h2, List.countP_append, List.countP_cons]

theorem dictContains_iff_countP_pos {α : Type} (d : List (String × α)) (k : String) :
    dictContains d k = true ↔ 0 < d.countP (fun p => p.1 == k) := by
  simp [dictContains, List.any_eq_true, List.countP_pos_iff]

/- ### Concrete kernels used by counterexamples and witnesses -/

/-- a scalar declaration ty nm. -/
def scalarDecl (nm ty : String) : CNode :=
  .decl nm [] [] [] (.typedecl (some nm) [] (.identifiertype [ty])) none none

/-- a one-dimensional array declaration ty nm[dim]. -/
def arrayDecl1 (nm ty : String) (dim : CNode) : CNode :=
  .decl nm [] [] [] (.arraydecl (.typedecl (some nm) [] (.identifiertype [ty])) dim)
    none none

/-- for (int ctr = 0; ctr < bound; ctr++) body. -/
def simpleFor (ctr : String) (bound : CNode) (body : CNode) : CNode :=
  .forloop
    (some (.decllist [.decl ctr [] [] []
      (.typedecl (some ctr) [] (.identifiertype ["int"]))
      (some (.const "int" "0")) none]))
    (.binop "<" (.id ctr) bound)
    (.unop "++" (.id ctr))
    body

/-- the kernel: float x; double y; for (int i = 0; i < N; i++) x = 0.23; --
its two declarations mix the element types. -/
def mixedKernelAst : CNode :=
  .compound [scalarDecl "x" "float", scalarDecl "y" "double",
    simpleFor "i" (.id "N") (.assignment "=" (.id "x") (.const "float" "0.23"))]

/- ### Claim C1 -/

/-- C1, counterexample: analysis of the mixed-datatype kernel fails, yet the
internal state at the moment the exception leaves _process_code is not the
pre-analysis state: the Variables dict already holds the float Variable x
registered before the violation (Python does not roll back self mutations
when an assert raises).  So the claim that after a failed analysis the
Variables are exactly as they were before analysis started is false. -/
theorem C1_counterexample :
    (process_code (initState mixedKernelAst)).1 =
      Except.error "mixing of datatypes within a kernel is not supported." ∧
    (process_code (initState mixedKernelAst)).2.vars ≠ (initState mixedKernelAst).vars ∧
    (process_code (initState mixedKernelAst)).2.vars = [("x", "float", none)] :=
  ⟨rfl, by decide, by decide⟩

/-- C1, amended: the analysis aborts at the first violation, and the failed
constructor surfaces only the exception -- no Kernel object (hence no
partial Data Model) is ever returned to the caller; however the internal
maps of the discarded object may retain entries recorded before the
violation. -/
theorem C1_fail_fast_no_kernel (ast : CNode) (e : String) (st2 : KernelState)
    (h : process_code (initState ast) = (Except.error e, st2)) :
    newKernel ast = Except.error e ∧ ∀ ks, ¬ newKernel ast = Except.ok ks := by
  refine ⟨?_, ?_⟩
  · simp [newKernel, h]
  · intro ks
    simp [newKernel, h]

/-- C1, witness for the amended theorem at the mixed-datatype kernel. -/
theorem C1_fail_fast_no_kernel_witness :
    newKernel mixedKernelAst =
      Except.error "mixing of datatypes within a kernel is not supported." :=
  (C1_fail_fast_no_kernel mixedKernelAst
    "mixing of datatypes within a kernel is not supported."
    (process_code (initState mixedKernelAst)).2 rfl).1

/- ### Claim C2 -/

/-- the reference c[i+1][j-2]. -/
def refCij : CNode :=
  .arrayref (.arrayref (.id "c") (.binop "+" (.id "i") (.const "int" "1")))
    (.binop "-" (.id "j") (.const "int" "2"))

/-- C2: for the validated reference c[i+1][j-2] under any Loop Stack whose
counters include i and j -- in either nesting order -- the extracted Access
Site is [relative(i, +1), relative(j, -2)], i.e. Offset Descriptors in
source left-to-right (outermost dimension first) order. -/
theorem C2_offset_ordering (counters : List String)
    (hi : counters.contains "i" = true) (hj : counters.contains "j" = true) :
    get_offsets counters refCij 0 =
      Except.ok [Offset.rel "i" 1, Offset.rel "j" (-2)] := by
  have hi2 : "i" ∈ counters := by simpa using hi
  have hj2 : "j" ∈ counters := by simpa using hj
  simp [refCij, get_offsets, echeck, hi2, hj2]
  rfl

/-- C2, witness: both nesting orders of the loops over i and j. -/
theorem C2_offset_ordering_witness :
    get_offsets ["j", "i"] refCij 0 =
      Except.ok [Offset.rel "i" 1, Offset.rel "j" (-2)] ∧
    get_offsets ["i", "j"] refCij 0 =
      Except.ok [Offset.rel "i" 1, Offset.rel "j" (-2)] :=
  ⟨C2_offset_ordering ["j", "i"] rfl rfl, C2_offset_ordering ["i", "j"] rfl rfl⟩

/- ### Claim C3 -/

/-- the assignment a[i] += b[i]. -/
def stmtAplusB : CNode :=
  .assignment "+=" (.arrayref (.id "a") (.id "i")) (.arrayref (.id "b") (.id "i"))

/-- an analyzer state with the given Loop Stack and no recorded accesses. -/
def freshLoopState (ls : List (String × SymExpr × SymExpr × Int)) : KernelState :=
  { initState (.compound []) with loop_stack := ls }

/-- C3: processing a[i] += b[i] under any Loop Stack containing counter i
records the Access Site [relative(i,0)] for a in both destinations and
sources, exactly one occurrence of + in the Operation Tally, and b only in
sources (b gets no destinations entry). -/
theorem C3_compound_assignment (ls : List (String × SymExpr × SymExpr × Int))
    (hi : (ls.map (fun e => e.1)).contains "i" = true) :
    p_assignment stmtAplusB (freshLoopState ls) =
      (Except.ok (),
       { freshLoopState ls with
          destinations := [("a", [[Offset.rel "i" 0]])],
          sources := [("a", [[Offset.rel "i" 0]]), ("b", [[Offset.rel "i" 0]])],
          flops := [("+", 1)] }) ∧
    dictContains ((p_assignment stmtAplusB (freshLoopState ls)).2.destinations) "b" = false := by
  have hi2 : "i" ∈ ls.map (fun e => e.1) := by simpa using hi
  have hstrip : stripEq "+=" = "+" := rfl
  have hmain : p_assignment stmtAplusB (freshLoopState ls) =
      (Except.ok (),
       { freshLoopState ls with
          destinations := [("a", [[Offset.rel "i" 0]])],
          sources := [("a", [[Offset.rel "i" 0]]), ("b", [[Offset.rel "i" 0]])],
          flops := [("+", 1)] }) := by
    simp [stmtAplusB, freshLoopState, p_assignment, p_sources, get_offsets,
      get_basename, echeck, countersOf, hi2, dictSetdefault, dictAppend,
      dictInsert, dictGetD, dictContains, isAssignNode, isRefOrId,
      isArrayRefNode, isId, isIdConstBinop, isSourceKind, srcKindMsg, hstrip,
      initState, KM.check]
  refine ⟨hmain, ?_⟩
  rw [hmain]
  show dictContains [("a", [[Offset.rel "i" 0]])] "b" = false
  decide

/-- C3, witness at the concrete one-loop stack over i. -/
theorem C3_compound_assignment_witness :
    p_assignment stmtAplusB (freshLoopState [("i", SymExpr.int 0, SymExpr.sym "N", 1)]) =
      (Except.ok (),
       { freshLoopState [("i", SymExpr.int 0, SymExpr.sym "N", 1)] with
          destinations := [("a", [[Offset.rel "i" 0]])],
          sources := [("a", [[Offset.rel "i" 0]]), ("b", [[Offset.rel "i" 0]])],
          flops := [("+", 1)] }) :=
  (C3_compound_assignment [("i", SymExpr.int 0, SymExpr.sym "N", 1)] rfl).1

/- ### Claim C5 -/

/-- the element type a declaration would register, read off declTypeSize. -/
def declTy (d : CNode) : String :=
  match declTypeSize d with
  | Except.ok r => r.2.1
  | Except.error _ => ""

theorem set_variable_first (nm ty : String) (sz : Option (List SymExpr))
    (s : KernelState) (htable : dictContains datatypes_size ty = true)
    (hdt : s.datatype = none) :
    set_variable nm ty sz s =
      (Except.ok (),
       { s with datatype := some ty, vars := dictInsert s.vars nm (ty, sz) }) := by
  simp [set_variable, htable, hdt, KM.check]

theorem set_variable_same (nm ty : String) (sz : Option (List SymExpr))
    (s : KernelState) (dt : String)
    (htable : dictContains datatypes_size ty = true)
    (hdt : s.datatype = some dt) (hsame : ty = dt) :
    set_variable nm ty sz s =
      (Except.ok (), { s with vars := dictInsert s.vars nm (ty, sz) }) := by
  subst hsame
  simp [set_variable, htable, hdt, KM.check]

theorem set_variable_mix (nm ty : String) (sz : Option (List SymExpr))
    (s : KernelState) (dt : String)
    (htable : dictContains datatypes_size ty = true)
    (hdt : s.datatype = some dt) (hne : ¬ ty = dt) :
    set_variable nm ty sz s =
      (Except.error "mixing of datatypes within a kernel is not supported.", s) := by
  simp [set_variable, htable, hdt, KM.check, hne]

theorem float_or_double_in_table (ty : String)
    (h : ty = "float" ∨ ty = "double") :
    dictContains datatypes_size ty = true := by
  cases h with
  | inl h => rw [h]; decide
  | inr h => rw [h]; decide

/-- once a datatype is fixed, a declaration list all of whose element types
are supported but one of which differs from the fixed type fails with the
mixing violation, leaving the Loop Stack untouched. -/
theorem processDecls_mixing (ds : List CNode) (s : KernelState) (t0 : String)
    (hdt : s.datatype = some t0)
    (hok : ∀ d ∈ ds, ∃ nm sz, declTypeSize d = Except.ok (nm, declTy d, sz))
    (htys : ∀ d ∈ ds, declTy d = "float" ∨ declTy d = "double")
    (hdiff : ∃ d ∈ ds, ¬ declTy d = t0) :
    (processDecls ds s).1 =
      Except.error "mixing of datatypes within a kernel is not supported." ∧
    (processDecls ds s).2.loop_stack = s.loop_stack := by
  induction ds generalizing s with
  | nil => obtain ⟨d, hd, _⟩ := hdiff; cases hd
  | cons d rest ih =>
      obtain ⟨nm, sz, hds⟩ := hok d (List.mem_cons_self d rest)
      have htable := float_or_double_in_table (declTy d) (htys d (List.mem_cons_self d rest))
      by_cases hty : declTy d = t0
      · have hrun := set_variable_same nm (declTy d) sz s t0 htable hdt hty
        have hdiff2 : ∃ d2 ∈ rest, ¬ declTy d2 = t0 := by
          obtain ⟨d2, hd2, hne2⟩ := hdiff
          cases List.mem_cons.1 hd2 with
          | inl he => exact absurd (he ▸ hty) hne2
          | inr hmem => exact ⟨d2, hmem, hne2⟩
        have ih2 := ih ({ s with vars := dictInsert s.vars nm (declTy d, sz) })
          (by simpa using hdt)
          (fun d2 h2 => hok d2 (List.mem_cons_of_mem d h2))
          (fun d2 h2 => htys d2 (List.mem_cons_of_mem d h2))
          hdiff2
        simp only [processDecls, KM.run_bind, KM.run_ofExcept, hds, hrun]
        exact ih2
      · have hrun := set_variable_mix nm (declTy d) sz s t0 htable hdt hty
        simp only [processDecls, KM.run_bind, KM.run_ofExcept, hds, hrun]
        simp

/-- from the datatype-none starting state: supported element types with at
least one float and one double always trip the mixing assert. -/
theorem processDecls_mixing_none (ds : List CNode) (s : KernelState)
    (hdt : s.datatype = none)
    (hok : ∀ d ∈ ds, ∃ nm sz, declTypeSize d = Except.ok (nm, declTy d, sz))
    (htys : ∀ d ∈ ds, declTy d = "float" ∨ declTy d = "double")
    (hfl : ∃ d ∈ ds, declTy d = "float")
    (hdb : ∃ d ∈ ds, declTy d = "double") :
    (processDecls ds s).1 =
      Except.error "mixing of datatypes within a kernel is not supported." ∧
    (processDecls ds s).2.loop_stack = s.loop_stack := by
  cases ds with
  | nil => obtain ⟨d, hd, _⟩ := hfl; cases hd
  | cons d rest =>
      obtain ⟨nm, sz, hds⟩ := hok d (List.mem_cons_self d rest)
      have htable := float_or_double_in_table (declTy d) (htys d (List.mem_cons_self d rest))
      have hrun := set_variable_first nm (declTy d) sz s htable hdt
      have hdiff : ∃ d2 ∈ rest, ¬ declTy d2 = declTy d := by
        cases htys d (List.mem_cons_self d rest) with
        | inl hf =>
            obtain ⟨d2, hd2, h2⟩ := hdb
            cases List.mem_cons.1 hd2 with
            | inl he =>
                rw [he, hf] at h2
                exact absurd h2 (by decide)
            | inr hmem =>
                refine ⟨d2, hmem, fun hc => ?_⟩
                rw [h2, hf] at hc
                exact absurd hc (by decide)
        | inr hd2ty =>
            obtain ⟨d2, hd2, h2⟩ := hfl
            cases List.mem_cons.1 hd2 with
            | inl he =>
                rw [he, hd2ty] at h2
                exact absurd h2 (by decide)
            | inr hmem =>
                refine ⟨d2, hmem, fun hc => ?_⟩
                rw [h2, hd2ty] at hc
                exact absurd hc (by decide)
      have hrest := processDecls_mixing rest
        ({ s with datatype := some (declTy d), vars := dictInsert s.vars nm (declTy d, sz) })
        (declTy d) (by simp)
        (fun d2 h2 => hok d2 (List.mem_cons_of_mem d h2))
        (fun d2 h2 => htys d2 (List.mem_cons_of_mem d h2))
        hdiff
      simp only [processDecls, KM.run_bind, KM.run_ofExcept, hds, hrun]
      exact hrest

theorem isDecl_of_declTypeSize (d : CNode) (r : String × String × Option (List SymExpr))
    (h : declTypeSize d = Except.ok r) : isDecl d = true := by
  cases d <;> first | rfl | exact absurd h (by simp [declTypeSize])

/-- C5: a structurally well-formed kernel whose declarations all extract to
supported element types, at least one float and at least one double, fails
with the MixedDatatype violation (the mixing assert message of
set_variable) during declaration processing, before any loop is processed:
the Loop Stack stays empty. -/
theorem C5_mixed_datatype (ds : List CNode) (f : CNode)
    (hf : isFor f = true)
    (hok : ∀ d ∈ ds, ∃ nm sz, declTypeSize d = Except.ok (nm, declTy d, sz))
    (htys : ∀ d ∈ ds, declTy d = "float" ∨ declTy d = "double")
    (hfl : ∃ d ∈ ds, declTy d = "float")
    (hdb : ∃ d ∈ ds, declTy d = "double") :
    (process_code (initState (.compound (ds ++ [f])))).1 =
      Except.error "mixing of datatypes within a kernel is not supported." ∧
    (process_code (initState (.compound (ds ++ [f])))).2.loop_stack = [] := by
  have hlast : (ds ++ [f]).getLast? = some f := by simp
  have hkast : (initState (.compound (ds ++ [f]))).kernel_ast =
      CNode.compound (ds ++ [f]) := rfl
  have hdrop : (ds ++ [f]).dropLast = ds := by simp
  have halldecl : ds.all isDecl = true := by
    rw [List.all_eq_true]
    intro d hd
    obtain ⟨nm, sz, hds⟩ := hok d hd
    exact isDecl_of_declTypeSize d _ hds
  obtain ⟨hm1, hm2⟩ := processDecls_mixing_none ds
    (initState (.compound (ds ++ [f]))) rfl hok htys hfl hdb
  cases hq : processDecls ds (initState (.compound (ds ++ [f]))) with
  | mk a st2 =>
      rw [hq] at hm1 hm2
      have hm1a : a = Except.error "mixing of datatypes within a kernel is not supported." := hm1
      rw [hm1a] at hq
      have hm2a : st2.loop_stack = [] := hm2
      constructor
      · simp only [process_code, KM.run_bind, KM.run_getS, KM.run_check, hkast,
          isCompound, halldecl, hlast, hf, eq_self_iff_true, if_true, hdrop, hq]
      · simp only [process_code, KM.run_bind, KM.run_getS, KM.run_check, hkast,
          isCompound, halldecl, hlast, hf, eq_self_iff_true, if_true, hdrop, hq]
        exact hm2a

/-- C5, witness at the concrete mixed kernel float x; double y; for .. -/
theorem C5_mixed_datatype_witness :
    (process_code (initState (.compound
      ([scalarDecl "x" "float", scalarDecl "y" "double"] ++
       [simpleFor "i" (.id "N") (.assignment "=" (.id "x") (.const "float" "0.23"))])))).1 =
      Except.error "mixing of datatypes within a kernel is not supported." ∧
    (process_code (initState (.compound
      ([scalarDecl "x" "float", scalarDecl "y" "double"] ++
       [simpleFor "i" (.id "N") (.assignment "=" (.id "x") (.const "float" "0.23"))])))).2.loop_stack = [] :=
  C5_mixed_datatype
    [scalarDecl "x" "float", scalarDecl "y" "double"]
    (simpleFor "i" (.id "N") (.assignment "=" (.id "x") (.const "float" "0.23")))
    rfl
    (by intro d hd
        simp only [List.mem_cons, List.not_mem_nil, or_false] at hd
        rcases hd with h | h
        · rw [h]; exact ⟨"x", none, rfl⟩
        · rw [h]; exact ⟨"y", none, rfl⟩)
    (by intro d hd
        simp only [List.mem_cons, List.not_mem_nil, or_false] at hd
        rcases hd with h | h
        · rw [h]; left; rfl
        · rw [h]; right; rfl)
    ⟨scalarDecl "x" "float", by simp, rfl⟩
    ⟨scalarDecl "y" "double", by simp, rfl⟩

/- ### Claim C6 -/

/-- a method leaves the Loop Stack untouched. -/
def preservesLS {α : Type} (m : KM α) : Prop :=
  ∀ s, (m s).2.loop_stack = s.loop_stack

theorem preservesLS_pure {α : Type} (a : α) : preservesLS (Pure.pure (f := KM) a) :=
  fun _ => rfl

theorem preservesLS_bind {α β : Type} (x : KM α) (f : α → KM β)
    (hx : preservesLS x) (hf : ∀ a, preservesLS (f a)) : preservesLS (x >>= f) := by
  intro s
  simp only [KM.run_bind]
  cases hxs : x s with
  | mk r s1 =>
      have hs1 : s1.loop_stack = s.loop_stack := by
        have := hx s
        rw [hxs] at this
        exact this
      cases r with
      | ok a => rw [hf a s1]; exact hs1
      | error e => exact hs1

theorem preservesLS_check (b : Prop) [Decidable b] (msg : String) :
    preservesLS (KM.check b msg) := fun _ => rfl

theorem preservesLS_fail {α : Type} (msg : String) :
    preservesLS (KM.fail (α := α) msg) := fun _ => rfl

theorem preservesLS_getS : preservesLS KM.getS := fun _ => rfl

theorem preservesLS_ofExcept {α : Type} (e : Except String α) :
    preservesLS (KM.ofExcept e) := fun _ => rfl

theorem preservesLS_modifyS (f : KernelState → KernelState)
    (hf : ∀ s, (f s).loop_stack = s.loop_stack) : preservesLS (KM.modifyS f) :=
  fun s => hf s

theorem preservesLS_ite {α : Type} (c : Prop) [Decidable c] (x y : KM α)
    (hx : preservesLS x) (hy : preservesLS y) :
    preservesLS (if c then x else y) := by
  by_cases h : c
  · simpa [h] using hx
  · simpa [h] using hy

/-- _p_sources never touches the Loop Stack. -/
theorem p_sources_preservesLS (stmt : CNode) : preservesLS (p_sources stmt) := by
  induction stmt using p_sources.induct with
  | case1 n sub =>
      rw [p_sources]
      exact preservesLS_bind _ _ (preservesLS_check _ _) (fun _ =>
        preservesLS_bind _ _ (preservesLS_ofExcept _) (fun _ =>
          preservesLS_bind _ _ (preservesLS_modifyS _ (fun _ => rfl)) (fun _ =>
            preservesLS_bind _ _ preservesLS_getS (fun _ =>
              preservesLS_bind _ _ (preservesLS_ofExcept _) (fun _ =>
                preservesLS_modifyS _ (fun _ => rfl))))))
  | case2 nm =>
      rw [p_sources]
      exact preservesLS_bind _ _ (preservesLS_check _ _) (fun _ =>
        preservesLS_modifyS _ (fun _ => rfl))
  | case3 op l r ihl ihr =>
      rw [p_sources]
      exact preservesLS_bind _ _ (preservesLS_check _ _) (fun _ =>
        preservesLS_bind _ _ ihl (fun _ =>
          preservesLS_bind _ _ ihr (fun _ => preservesLS_modifyS _ (fun _ => rfl))))
  | case4 other h1 h2 h3 =>
      cases other with
      | arrayref n sub => exact absurd rfl (h1 n sub)
      | id nm => exact absurd rfl (h2 nm)
      | binop op l r => exact absurd rfl (h3 op l r)
      | const t v => exact preservesLS_check _ _
      | unop op e => exact preservesLS_check _ _
      | assignment op l r => exact preservesLS_check _ _
      | funccall n a => exact preservesLS_check _ _
      | exprlist es => exact preservesLS_check _ _
      | identifiertype ns => exact preservesLS_check _ _
      | typedecl dn q t => exact preservesLS_check _ _
      | arraydecl t d => exact preservesLS_check _ _
      | ptrdecl q t => exact preservesLS_check _ _
      | typename n q t => exact preservesLS_check _ _
      | funcdecl a t => exact preservesLS_check _ _
      | decl nm q st2 f t i b => exact preservesLS_check _ _
      | decllist ds => exact preservesLS_check _ _
      | forloop i c n st2 => exact preservesLS_check _ _
      | ifstmt c t e => exact preservesLS_check _ _
      | compound is => exact preservesLS_check _ _
      | funcdef d p b => exact preservesLS_check _ _
      | paramlist ps => exact preservesLS_check _ _
      | fileast es => exact preservesLS_check _ _

/-- _p_assignment never touches the Loop Stack. -/
theorem p_assignment_preservesLS (stmt : CNode) : preservesLS (p_assignment stmt) := by
  refine preservesLS_bind _ _ (preservesLS_check _ _) (fun _ => ?_)
  cases stmt with
  | assignment op lv rv =>
      refine preservesLS_bind _ _ (preservesLS_check _ _) (fun _ => ?_)
      refine preservesLS_bind _ _ (preservesLS_ite _ _ _
        (preservesLS_modifyS _ (fun _ => rfl)) (preservesLS_pure _)) (fun _ => ?_)
      refine preservesLS_bind _ _ ?_ (fun _ => p_sources_preservesLS rv)
      cases lv with
      | arrayref n sub =>
          refine preservesLS_bind _ _ (preservesLS_ofExcept _) (fun _ => ?_)
          refine preservesLS_bind _ _ (preservesLS_modifyS _ (fun _ => rfl)) (fun _ => ?_)
          refine preservesLS_bind _ _ preservesLS_getS (fun _ => ?_)
          refine preservesLS_bind _ _ (preservesLS_ofExcept _) (fun _ => ?_)
          refine preservesLS_bind _ _ (preservesLS_modifyS _ (fun _ => rfl)) (fun _ => ?_)
          refine preservesLS_ite _ _ _ ?_ (preservesLS_pure _)
          refine preservesLS_bind _ _ (preservesLS_ofExcept _) (fun _ => ?_)
          refine preservesLS_bind _ _ (preservesLS_modifyS _ (fun _ => rfl)) (fun _ => ?_)
          refine preservesLS_bind _ _ preservesLS_getS (fun _ => ?_)
          refine preservesLS_bind _ _ (preservesLS_ofExcept _) (fun _ => ?_)
          exact preservesLS_modifyS _ (fun _ => rfl)
      | id nm =>
          refine preservesLS_bind _ _ (preservesLS_modifyS _ (fun _ => rfl)) (fun _ => ?_)
          exact preservesLS_ite _ _ _ (preservesLS_modifyS _ (fun _ => rfl)) (preservesLS_pure _)
      | assignment o2 l2 r2 => exact preservesLS_pure _
      | const t v => exact preservesLS_pure _
      | unop o e => exact preservesLS_pure _
      | binop o l r => exact preservesLS_pure _
      | funccall n a => exact preservesLS_pure _
      | exprlist es => exact preservesLS_pure _
      | identifiertype ns => exact preservesLS_pure _
      | typedecl dn q t => exact preservesLS_pure _
      | arraydecl t d => exact preservesLS_pure _
      | ptrdecl q t => exact preservesLS_pure _
      | typename n q t => exact preservesLS_pure _
      | funcdecl a t => exact preservesLS_pure _
      | decl nm q st2 f t i b => exact preservesLS_pure _
      | decllist ds => exact preservesLS_pure _
      | forloop i c n st2 => exact preservesLS_pure _
      | ifstmt c t e => exact preservesLS_pure _
      | compound is => exact preservesLS_pure _
      | funcdef d p b => exact preservesLS_pure _
      | paramlist ps => exact preservesLS_pure _
      | fileast es => exact preservesLS_pure _
  | id nm => exact preservesLS_pure _
  | const t v => exact preservesLS_pure _
  | unop o e => exact preservesLS_pure _
  | binop o l r => exact preservesLS_pure _
  | arrayref n sub => exact preservesLS_pure _
  | funccall n a => exact preservesLS_pure _
  | exprlist es => exact preservesLS_pure _
  | identifiertype ns => exact preservesLS_pure _
  | typedecl dn q t => exact preservesLS_pure _
  | arraydecl t d => exact preservesLS_pure _
  | ptrdecl q t => exact preservesLS_pure _
  | typename n q t => exact preservesLS_pure _
  | funcdecl a t => exact preservesLS_pure _
  | decl nm q st2 f t i b => exact preservesLS_pure _
  | decllist ds => exact preservesLS_pure _
  | forloop i c n st2 => exact preservesLS_pure _
  | ifstmt c t e => exact preservesLS_pure _
  | compound is => exact preservesLS_pure _
  | funcdef d p b => exact preservesLS_pure _
  | paramlist ps => exact preservesLS_pure _
  | fileast es => exact preservesLS_pure _

/-- the compound-body loop never touches the Loop Stack. -/
theorem p_assignments_preservesLS (items : List CNode) :
    preservesLS (p_assignments items) := by
  induction items with
  | nil => exact preservesLS_pure _
  | cons x xs ih =>
      rw [p_assignments]
      exact preservesLS_bind _ _ (p_assignment_preservesLS x) (fun _ => ih)

/-- set_variable never touches the Loop Stack. -/
theorem set_variable_preservesLS (nm ty : String) (sz : Option (List SymExpr)) :
    preservesLS (set_variable nm ty sz) := by
  refine preservesLS_bind _ _ (preservesLS_check _ _) (fun _ => ?_)
  refine preservesLS_bind _ _ preservesLS_getS (fun st => ?_)
  refine preservesLS_bind _ _ ?_ (fun _ => preservesLS_modifyS _ (fun _ => rfl))
  cases st.datatype with
  | none => exact preservesLS_modifyS _ (fun _ => rfl)
  | some dt => exact preservesLS_check _ _

/-- declaration processing never touches the Loop Stack. -/
theorem processDecls_preservesLS (ds : List CNode) :
    preservesLS (processDecls ds) := by
  induction ds with
  | nil => exact preservesLS_pure _
  | cons d rest ih =>
      rw [processDecls]
      exact preservesLS_bind _ _ (preservesLS_ofExcept _) (fun r =>
        preservesLS_bind _ _ (set_variable_preservesLS r.1 r.2.1 r.2.2) (fun _ => ih))

/-- a compound loop body that is not a single nested for contributes depth
one (only its own loop). -/
theorem nestDepth_compound_other (fi : Option CNode) (fc fn : CNode)
    (items : List CNode)
    (h : ∀ (a : Option CNode) (b c d : CNode), items = [CNode.forloop a b c d] → False) :
    nestDepth (.forloop fi fc fn (.compound items)) = 1 := by
  cases items with
  | nil => rfl
  | cons x rest =>
      cases rest with
      | cons y r2 => cases x <;> rfl
      | nil => cases x <;> first | rfl | exact absurd rfl (fun hq => h _ _ _ _ hq)

/-- a node that is not a for loop has nesting depth zero. -/
theorem nestDepth_not_for (other : CNode)
    (h : ∀ (fi : Option CNode) (fc fn stmt : CNode),
      other = CNode.forloop fi fc fn stmt → False) :
    nestDepth other = 0 := by
  cases other <;> first | rfl | exact absurd rfl (fun hq => h _ _ _ _ hq)

/-- _p_for, on success, grows the Loop Stack by exactly the nesting depth of
the loop it was given. -/
theorem p_for_loop_stack_len (floop : CNode) :
    ∀ (s s2 : KernelState) (u : Unit), p_for floop s = (Except.ok u, s2) →
      s2.loop_stack.length = s.loop_stack.length + nestDepth floop := by
  induction floop using p_for.induct with
  | case1 fi fc fn a b c d ih =>
      intro s s2 u h
      have hrun : p_for (.forloop fi fc fn (.forloop a b c d)) s =
          ((KM.ofExcept (forHeader (.forloop fi fc fn (.forloop a b c d))) >>= fun entry =>
            pushLoop entry >>= fun _ => p_for (.forloop a b c d)) s) := rfl
      rw [hrun] at h
      simp only [KM.run_bind, KM.run_ofExcept] at h
      cases hh : forHeader (CNode.forloop fi fc fn (CNode.forloop a b c d)) with
      | error e => rw [hh] at h; cases h
      | ok entry =>
          rw [hh] at h
          simp only [pushLoop, KM.run_modifyS] at h
          have hlen := ih _ _ _ h
          simp only [List.length_append, List.length_cons, List.length_nil] at hlen
          have hdep : nestDepth (CNode.forloop fi fc fn (CNode.forloop a b c d)) =
              1 + nestDepth (CNode.forloop a b c d) := rfl
          rw [hdep]
          omega
  | case2 fi fc fn a b c d ih =>
      intro s s2 u h
      have hrun : p_for (.forloop fi fc fn (.compound [.forloop a b c d])) s =
          ((KM.ofExcept (forHeader (.forloop fi fc fn (.compound [.forloop a b c d]))) >>= fun entry =>
            pushLoop entry >>= fun _ => p_for (.forloop a b c d)) s) := rfl
      rw [hrun] at h
      simp only [KM.run_bind, KM.run_ofExcept] at h
      cases hh : forHeader (CNode.forloop fi fc fn (CNode.compound [CNode.forloop a b c d])) with
      | error e => rw [hh] at h; cases h
      | ok entry =>
          rw [hh] at h
          simp only [pushLoop, KM.run_modifyS] at h
          have hlen := ih _ _ _ h
          simp only [List.length_append, List.length_cons, List.length_nil] at hlen
          have hdep : nestDepth (CNode.forloop fi fc fn (CNode.compound [CNode.forloop a b c d])) =
              1 + nestDepth (CNode.forloop a b c d) := rfl
          rw [hdep]
          omega
  | case3 fi fc fn items hni =>
      intro s s2 u h
      have hrun : p_for (.forloop fi fc fn (.compound items)) s =
          ((KM.ofExcept (forHeader (.forloop fi fc fn (.compound items))) >>= fun entry =>
            pushLoop entry >>= fun _ => p_assignments items) s) := by
        rw [p_for]
        intro a b c d hq
        exact hni a b c d hq
      rw [hrun] at h
      simp only [KM.run_bind, KM.run_ofExcept] at h
      cases hh : forHeader (CNode.forloop fi fc fn (CNode.compound items)) with
      | error e => rw [hh] at h; cases h
      | ok entry =>
          rw [hh] at h
          simp only [pushLoop, KM.run_modifyS] at h
          have hpres := p_assignments_preservesLS items
            { s with loop_stack := s.loop_stack ++ [entry] }
          rw [h] at hpres
          simp only at hpres
          rw [hpres]
          rw [nestDepth_compound_other fi fc fn items hni]
          simp
  | case4 fi fc fn o l r =>
      intro s s2 u h
      have hrun : p_for (.forloop fi fc fn (.assignment o l r)) s =
          ((KM.ofExcept (forHeader (.forloop fi fc fn (.assignment o l r))) >>= fun entry =>
            pushLoop entry >>= fun _ => p_assignment (.assignment o l r)) s) := rfl
      rw [hrun] at h
      simp only [KM.run_bind, KM.run_ofExcept] at h
      cases hh : forHeader (CNode.forloop fi fc fn (CNode.assignment o l r)) with
      | error e => rw [hh] at h; cases h
      | ok entry =>
          rw [hh] at h
          simp only [pushLoop, KM.run_modifyS] at h
          have hpres := p_assignment_preservesLS (.assignment o l r)
            { s with loop_stack := s.loop_stack ++ [entry] }
          rw [h] at hpres
          simp only at hpres
          rw [hpres]
          simp [nestDepth]
  | case5 fi fc fn other hn1 hn2 hn3 hn4 =>
      intro s s2 u h
      have hrun : p_for (.forloop fi fc fn other) s =
          ((KM.ofExcept (forHeader (.forloop fi fc fn other)) >>= fun entry =>
            pushLoop entry >>= fun _ => KM.fail (α := Unit) "AttributeError") s) := by
        rw [p_for]
        · intro a b c d hq; exact hn1 a b c d hq
        · intro a b c d hq; exact hn2 a b c d hq
        · intro its hq; exact hn3 its hq
        · intro o l r hq; exact hn4 o l r hq
      rw [hrun] at h
      simp only [KM.run_bind, KM.run_ofExcept] at h
      cases hh : forHeader (CNode.forloop fi fc fn other) with
      | error e => rw [hh] at h; cases h
      | ok entry => rw [hh] at h; cases h
  | case6 other hn1 hn2 hn3 hn4 hn5 =>
      intro s s2 u h
      have hrun : p_for other s =
          ((KM.ofExcept (forHeader other) >>= fun _ => Pure.pure ()) s) := by
        rw [p_for]
        · intro fi fc fn a b c d hq; exact hn1 fi fc fn a b c d hq
        · intro fi fc fn a b c d hq; exact hn2 fi fc fn a b c d hq
        · intro fi fc fn its hq; exact hn3 fi fc fn its hq
        · intro fi fc fn o l r hq; exact hn4 fi fc fn o l r hq
        · intro fi fc fn o2 hq; exact hn5 fi fc fn o2 hq
      rw [hrun] at h
      simp only [KM.run_bind, KM.run_ofExcept] at h
      cases hh : forHeader other with
      | error e => rw [hh] at h; cases h
      | ok entry =>
          rw [hh] at h
          simp only [KM.run_pure] at h
          cases h
          rw [nestDepth_not_for other (fun fi fc fn stmt hq => hn5 fi fc fn stmt hq)]
          simp

/-- a declaration node has nesting depth zero. -/
theorem nestDepth_of_isDecl (d : CNode) (h : isDecl d = true) : nestDepth d = 0 := by
  cases d <;> first | rfl | exact absurd h (by simp [isDecl])

/-- C6: for every kernel that passes validation, the Loop Stack holds one
entry per for construct in the source: its length equals the total nesting
depth of for loops in the kernel body (a nested loop counting whether it is
the loop body itself or the sole statement of a compound block). -/
theorem C6_loop_stack_depth (ast : CNode) (ks : KernelState)
    (h : newKernel ast = Except.ok ks) :
    ks.loop_stack.length = kernelNestDepth ast := by
  unfold newKernel at h
  cases hq : process_code (initState ast) with
  | mk r st2 =>
      rw [hq] at h
      cases r with
      | error e => cases h
      | ok u =>
          have hks : st2 = ks := by
            have : Except.ok (ε := String) st2 = Except.ok ks := h
            cases this
            rfl
          subst hks
          cases ast with
          | compound items =>
              have hrun : process_code (initState (.compound items)) =
                  ((KM.check ((items.dropLast.all isDecl) = true)
                      "all statments befor the for loop need to be declarations" >>= fun _ =>
                    (match items.getLast? with
                     | none => KM.fail "IndexError"
                     | some lastItem =>
                        KM.check (isFor lastItem = true)
                          "last statment in kernel code must be a loop" >>= fun _ =>
                        processDecls items.dropLast >>= fun _ =>
                        p_for lastItem)) (initState (.compound items))) := rfl
              rw [hrun] at hq
              simp only [KM.run_bind, KM.run_check] at hq
              by_cases hall : (items.dropLast.all isDecl) = true
              · rw [if_pos hall] at hq
                cases hlast : items.getLast? with
                | none => rw [hlast] at hq; cases hq
                | some lastItem =>
                    rw [hlast] at hq
                    simp only [KM.run_bind, KM.run_check] at hq
                    by_cases hfor : isFor lastItem = true
                    · rw [if_pos hfor] at hq
                      dsimp only at hq
                      cases hpd : processDecls items.dropLast (initState (.compound items)) with
                      | mk r1 s1 =>
                          rw [hpd] at hq
                          cases r1 with
                          | error e1 => cases hq
                          | ok u1 =>
                              dsimp only at hq
                              have hs1 : s1.loop_stack = [] := by
                                have := processDecls_preservesLS items.dropLast
                                  (initState (.compound items))
                                rw [hpd] at this
                                exact this
                              have hlen := p_for_loop_stack_len lastItem s1 st2 u hq
                              rw [hs1] at hlen
                              simp only [List.length_nil, Nat.zero_add] at hlen
                              rw [hlen]
                              have hne : items ≠ [] := by
                                intro hemp
                                rw [hemp] at hlast
                                cases hlast
                              have hgl : items.getLast hne = lastItem := by
                                rw [List.getLast?_eq_getLast _ hne] at hlast
                                exact Option.some_inj.1 hlast
                              have hitems : items.dropLast ++ [lastItem] = items := by
                                rw [← hgl]
                                exact List.dropLast_append_getLast hne
                              rw [kernelNestDepth, ← hitems]
                              rw [List.map_append, List.sum_append]
                              have hzero : ((items.dropLast.map nestDepth).sum) = 0 := by
                                rw [List.sum_eq_zero]
                                intro x hx
                                obtain ⟨d, hd, hdx⟩ := List.mem_map.1 hx
                                rw [← hdx]
                                exact nestDepth_of_isDecl d
                                  (by
                                    rw [List.all_eq_true] at hall
                                    exact hall d hd)
                              rw [hzero]
                              simp
                    · rw [if_neg hfor] at hq; cases hq
              · rw [if_neg hall] at hq; cases hq
          | id nm => cases hq
          | const t v => cases hq
          | binop o l r => cases hq
          | unop o e => cases hq
          | arrayref n sub => cases hq
          | assignment o l r => cases hq
          | funccall n a => cases hq
          | exprlist es => cases hq
          | identifiertype ns => cases hq
          | typedecl dn q t => cases hq
          | arraydecl t d => cases hq
          | ptrdecl q t => cases hq
          | typename n q t => cases hq
          | funcdecl a t => cases hq
          | decl nm q st3 f t i b => cases hq
          | decllist ds => cases hq
          | forloop i c n st3 => cases hq
          | ifstmt c t e => cases hq
          | funcdef d p b => cases hq
          | paramlist ps => cases hq
          | fileast es => cases hq

/-- C6, witness: a depth-two kernel (the inner loop the sole statement of a
compound block) has a Loop Stack of length two. -/
theorem C6_loop_stack_depth_witness :
    (newKernel (.compound [arrayDecl1 "a" "double" (.id "N"),
      simpleFor "i" (.id "N") (.compound [simpleFor "j" (.id "N")
        (.assignment "=" (.arrayref (.id "a") (.id "j")) (.const "float" "0.23"))])])).map
      (fun ks => ks.loop_stack.length) = Except.ok 2 := by
  have h : newKernel (.compound [arrayDecl1 "a" "double" (.id "N"),
      simpleFor "i" (.id "N") (.compound [simpleFor "j" (.id "N")
        (.assignment "=" (.arrayref (.id "a") (.id "j")) (.const "float" "0.23"))])]) =
      Except.ok ((process_code (initState (.compound [arrayDecl1 "a" "double" (.id "N"),
      simpleFor "i" (.id "N") (.compound [simpleFor "j" (.id "N")
        (.assignment "=" (.arrayref (.id "a") (.id "j")) (.const "float" "0.23"))])]))).2) := rfl
  rw [h, Except.map]
  rw [C6_loop_stack_depth _ _ h]
  rfl

/- ### Claim C9 -/

/-- the character code of a single-character variable name (only those can
collide with the single-character counter candidates). -/
def oneCharCode (s : String) : Option Nat :=
  match s.data with
  | [ch] => some ch.toNat
  | _ => none

/-- codes of the single-character keys of the array_dimensions dict. -/
def keyCodes (keys : List String) : List Nat := keys.filterMap oneCharCode

theorem char_toNat_ofNat (c : Nat) (h : c < 55296) : (Char.ofNat c).toNat = c := by
  have hv : Nat.isValidChar c := Or.inl h
  rw [Char.ofNat, dif_pos hv]
  rfl

theorem length_filter_mono_pred (l : List Nat) (c : Nat) :
    (l.filter (fun k => decide (c + 1 ≤ k))).length ≤
      (l.filter (fun k => decide (c ≤ k))).length := by
  induction l with
  | nil => simp
  | cons x t ih =>
      by_cases h1 : c + 1 ≤ x <;> by_cases h2 : c ≤ x <;>
        simp [List.filter_cons, h1, h2] <;> omega

theorem length_filter_strict (l : List Nat) (c : Nat) (hc : c ∈ l) :
    (l.filter (fun k => decide (c + 1 ≤ k))).length <
      (l.filter (fun k => decide (c ≤ k))).length := by
  induction l with
  | nil => cases hc
  | cons x t ih =>
      rcases List.mem_cons.1 hc with he | ht
      · subst he
        have hmono := length_filter_mono_pred t c
        simp [List.filter_cons]
        omega
      · have ihh := ih ht
        by_cases h1 : c + 1 ≤ x <;> by_cases h2 : c ≤ x <;>
          simp [List.filter_cons, h1, h2] <;> omega

theorem mem_keyCodes_of_contains (keys : List String) (c : Nat) (hc : c < 55296)
    (h : keys.contains (codeToName c) = true) : c ∈ keyCodes keys := by
  have hmem : codeToName c ∈ keys := by simpa using h
  apply List.mem_filterMap.2
  refine ⟨codeToName c, hmem, ?_⟩
  have : oneCharCode (codeToName c) = some ((Char.ofNat c).toNat) := rfl
  rw [this, char_toNat_ofNat c hc]

/-- the candidate loop of lines 464-466 terminates at a name that is not a
declared variable name, provided the candidate codes stay in the valid
character range (the realistic case; a kernel would need tens of thousands
of declarations to leave it). -/
theorem freshNameAux_not_mem : ∀ (fuel : Nat) (keys : List String) (c : Nat),
    c + fuel ≤ 55296 →
    ((keyCodes keys).filter (fun k => decide (c ≤ k))).length < fuel →
    freshNameAux fuel keys c ∉ keys := by
  intro fuel
  induction fuel with
  | zero => intro keys c hle hlt; omega
  | succ n ih =>
      intro keys c hle hlt
      rw [freshNameAux]
      cases hcon : keys.contains (codeToName c) with
      | false =>
          rw [if_neg (by simp)]
          intro hmem
          have hcon2 : keys.contains (codeToName c) = true := by simpa using hmem
          rw [hcon] at hcon2
          cases hcon2
      | true =>
          rw [if_pos rfl]
          apply ih keys (c + 1)
          · omega
          · have hmemc : c ∈ keyCodes keys :=
              mem_keyCodes_of_contains keys c (by omega) hcon
            have hstrict := length_filter_strict (keyCodes keys) c hmemc
            omega

/-- C9, amended: the loop-counter name synthesized for the array
initialization loops is chosen deterministically (the first character code
from i onward that does not name a declared variable) and never collides
with a declared kernel variable name; it is not checked against Symbolic
Constant names, so it can collide with those (see the counterexample). -/
theorem C9_fresh_counter_amended (keys : List String)
    (h : 105 + keys.length < 55296) : initCounterName keys ∉ keys := by
  apply freshNameAux_not_mem (keys.length + 1) keys 105
  · omega
  · have h1 : (keyCodes keys).length ≤ keys.length := List.length_filterMap_le _ _
    have h2 : ((keyCodes keys).filter (fun k => decide (105 ≤ k))).length ≤
        (keyCodes keys).length := List.length_filter_le _ _
    omega

/-- C9, witness for the amended theorem: with variables named a and i
declared, the counter skips i and picks j, colliding with nothing. -/
theorem C9_fresh_counter_amended_witness :
    initCounterName ["a", "i"] ∉ ["a", "i"] ∧ initCounterName ["a", "i"] = "j" :=
  ⟨C9_fresh_counter_amended ["a", "i"] (by decide), by decide⟩

/-- the kernel double a[i]; for (int j = 0; j < i; j++) a[j] = 0.23; whose
dimension is the Symbolic Constant i. -/
def kernel9 : CNode := .compound [arrayDecl1 "a" "double" (.id "i"),
  simpleFor "j" (.id "i")
    (.assignment "=" (.arrayref (.id "a") (.id "j")) (.const "float" "0.23"))]

/-- the analyzed kernel9 with the constant i bound to 5. -/
def state9 : KernelState :=
  match newKernel kernel9 with
  | Except.ok s => set_constant (.strKey "i") 5 s
  | Except.error _ => initState kernel9

/-- the initialization loop as_code synthesizes for a in kernel9: its
counter is named i, so its condition reads i < i against the shadowed
runtime constant i. -/
def collidingInitFor : CNode :=
  .forloop (some (.decllist [.decl "i" [] [] []
      (.typedecl (some "i") [] (.identifiertype ["int"]))
      (some (.const "int" "0")) none]))
    (.binop "<" (.id "i") (.id "i"))
    (.unop "++" (.id "i"))
    (.assignment "=" (.arrayref (.id "a") (.id "i")) (.const "float" "0.23"))

/-- C9, counterexample: for kernel9 with Symbolic Constant i bound, the
synthesized program binds i from the command line yet also names the
array-initialization counter i -- the fresh-name loop only avoids declared
variable names (the array_dimensions keys), not constant names, so the
claimed no-collision-with-any-existing-identifier property is false. -/
theorem C9_counterexample :
    dictContains state9.constants "i" = true ∧
    (match as_code "iaca" state9 with
     | Except.ok out => occurs collidingInitFor out
     | Except.error _ => false) = true :=
  ⟨by decide, by decide⟩

/- ### Claim C4 -/

theorem listProd_append (l1 l2 : List Int) :
    listProd (l1 ++ l2) = listProd l1 * listProd l2 := by
  induction l1 with
  | nil => simp [listProd]
  | cons x t ih => simp [listProd, ih]; ring

theorem listProd_reverse (l : List Int) : listProd l.reverse = listProd l := by
  induction l with
  | nil => rfl
  | cons x t ih =>
      rw [List.reverse_cons, listProd_append, ih]
      simp [listProd]
      ring

theorem ceval_foldl_add (rho : String → Int) (xs : List CNode) (x : CNode) :
    ceval rho (xs.foldl (fun l r => .binop "+" l r) x) =
      ceval rho x + (xs.map (ceval rho)).sum := by
  induction xs generalizing x with
  | nil => simp
  | cons y ys ih =>
      rw [List.foldl_cons, ih]
      simp [ceval]
      ring

theorem ceval_foldl_mul (rho : String → Int) (xs : List CNode) (x : CNode) :
    ceval rho (xs.foldl (fun l r => .binop "*" l r) x) =
      ceval rho x * listProd (xs.map (ceval rho)) := by
  induction xs generalizing x with
  | nil => simp [listProd]
  | cons y ys ih =>
      rw [List.foldl_cons, ih]
      simp [ceval, listProd]
      ring

theorem collectRefChain_foldl (ss : List CNode) (acc : CNode) :
    collectRefChain (ss.foldl (fun a s => .arrayref a s) acc) =
      (ss.reverse ++ (collectRefChain acc).1, (collectRefChain acc).2) := by
  induction ss generalizing acc with
  | nil => simp
  | cons s t ih =>
      rw [List.foldl_cons, ih]
      simp [collectRefChain]

theorem collectRefChain_buildRef (name : String) (ss : List CNode) :
    collectRefChain (buildRef name ss) = (ss.reverse, .id name) := by
  rw [buildRef, collectRefChain_foldl]
  simp [collectRefChain]

theorem foldl_arrayref_shape (ss : List CNode) :
    ∀ (a b : CNode), ∃ a2 b2,
      ss.foldl (fun x s => CNode.arrayref x s) (.arrayref a b) = CNode.arrayref a2 b2 := by
  induction ss with
  | nil => exact fun a b => ⟨a, b, rfl⟩
  | cons s t ih =>
      intro a b
      rw [List.foldl_cons]
      exact ih (.arrayref a b) s

theorem buildRef_shape (name : String) (s0 : CNode) (ss : List CNode) :
    ∃ a b, buildRef name (s0 :: ss) = CNode.arrayref a b := by
  rw [buildRef, List.foldl_cons]
  exact foldl_arrayref_shape ss (.id name) s0

theorem sumHorner_append (rs es : List Int) (s e : Int)
    (hlen : rs.length = es.length) :
    sumHorner (rs ++ [s]) (es ++ [e]) = sumHorner rs es + s * listProd es := by
  induction rs generalizing es with
  | nil =>
      cases es with
      | nil => simp [sumHorner, listProd]
      | cons e0 t => cases hlen
  | cons r rt ih =>
      cases es with
      | nil => cases hlen
      | cons e0 et =>
          have hl2 : rt.length = et.length := by simpa using hlen
          rw [List.cons_append, List.cons_append]
          rw [show sumHorner (r :: (rt ++ [s])) (e0 :: (et ++ [e])) =
                r + e0 * sumHorner (rt ++ [s]) (et ++ [e]) from rfl]
          rw [ih et hl2]
          rw [show sumHorner (r :: rt) (e0 :: et) = r + e0 * sumHorner rt et from rfl]
          rw [show listProd (e0 :: et) = e0 * listProd et from rfl]
          ring

theorem flatIdx_eq_sumHorner (sv dv : List Int) (hlen : sv.length = dv.length) :
    flatIdx sv dv = sumHorner sv.reverse dv.reverse := by
  induction sv generalizing dv with
  | nil => cases dv with
      | nil => rfl
      | cons d t => cases hlen
  | cons s st ih =>
      cases dv with
      | nil => cases hlen
      | cons d dt =>
          have hl2 : st.length = dt.length := by simpa using hlen
          rw [flatIdx]
          simp only [List.drop_succ_cons, List.drop_zero]
          rw [ih dt hl2]
          simp only [List.reverse_cons]
          rw [sumHorner_append _ _ _ _ (by simp [hl2]), listProd_reverse]
          ring

theorem buildSubAux_cons (dd : List (String × List CNode)) (base : CNode)
    (d : CNode) (rest : List CNode) (i : Nat) :
    buildSubAux dd base (d :: rest) i =
      (if i = 0 then Except.ok d else
        match base with
        | .id bnm =>
          (match dd.find? (fun p => p.1 == bnm) with
           | some p =>
               (reduceBinop "*" (sliceRevTake p.2 i)).bind
                 (fun m => Except.ok (.binop "*" d m))
           | none => Except.error "KeyError")
        | _ => Except.error "AttributeError").bind (fun head =>
        (buildSubAux dd base rest (i + 1)).bind (fun tail =>
          Except.ok (head :: tail))) := rfl

theorem buildSubAux_sum (rho : String → Int) (name : String) (D : List CNode)
    (dd : List (String × List CNode))
    (hfind : dd.find? (fun p => p.1 == name) = some (name, D)) :
    ∀ (rdims : List CNode) (i : Nat), 1 ≤ i → i + rdims.length ≤ D.length →
      ∃ sl, buildSubAux dd (.id name) rdims i = Except.ok sl ∧
        (sl.map (ceval rho)).sum =
          listProd ((D.reverse.take i).map (ceval rho)) *
            sumHorner (rdims.map (ceval rho)) ((D.reverse.drop i).map (ceval rho)) := by
  intro rdims
  induction rdims with
  | nil =>
      intro i hi hlen
      exact ⟨[], rfl, by simp [sumHorner]⟩
  | cons r rs ih =>
      intro i hi hlen
      have hizero : ¬ (i = 0) := by omega
      have hDlen : i < D.length := by
        simp only [List.length_cons] at hlen
        omega
      have hrevlen : i < D.reverse.length := by simpa using hDlen
      have htake_ne : D.reverse.take i ≠ [] := by
        intro hq
        have h2 := congrArg List.length hq
        simp only [List.length_take, List.length_reverse, List.length_nil] at h2
        omega
      obtain ⟨x, xs, hxx⟩ := List.exists_cons_of_ne_nil htake_ne
      have hslice : sliceRevTake D i = x :: xs := hxx
      obtain ⟨sl, hsl, hsum⟩ := ih (i + 1) (by omega)
        (by simp only [List.length_cons] at hlen; omega)
      refine ⟨CNode.binop "*" r (xs.foldl (fun l rr => .binop "*" l rr) x) :: sl, ?_, ?_⟩
      · rw [buildSubAux_cons, if_neg hizero]
        dsimp only
        rw [hfind]
        dsimp only
        rw [hslice]
        simp only [reduceBinop, except_bind_ok, hsl]
        rfl
      · simp only [List.map_cons, List.sum_cons, hsum]
        have hm : ceval rho (CNode.binop "*" r (xs.foldl (fun l rr => .binop "*" l rr) x)) =
            ceval rho r * (ceval rho x * listProd (xs.map (ceval rho))) := by
          rw [show ceval rho (CNode.binop "*" r (xs.foldl (fun l rr => .binop "*" l rr) x)) =
                ceval rho r * ceval rho (xs.foldl (fun l rr => .binop "*" l rr) x) from rfl]
          rw [ceval_foldl_mul]
        have hxxprod : ceval rho x * listProd (xs.map (ceval rho)) =
            listProd ((D.reverse.take i).map (ceval rho)) := by
          rw [hxx]
          simp [listProd]
        have hdropcons : D.reverse.drop i =
            D.reverse[i] :: D.reverse.drop (i + 1) :=
          List.drop_eq_getElem_cons hrevlen
        have htakesucc : D.reverse.take (i + 1) = D.reverse.take i ++ [D.reverse[i]] := by
          rw [List.take_succ]
          rw [List.getElem?_eq_getElem hrevlen]
          rfl
        rw [hm, hxxprod, hdropcons, htakesucc]
        simp only [List.map_cons, List.map_append, List.map_cons, List.map_nil]
        rw [listProd_append]
        rw [show sumHorner (ceval rho r :: rs.map (ceval rho))
              (ceval rho (D.reverse[i]) :: (D.reverse.drop (i + 1)).map (ceval rho)) =
            ceval rho r + ceval rho (D.reverse[i]) *
              sumHorner (rs.map (ceval rho)) ((D.reverse.drop (i + 1)).map (ceval rho)) from rfl]
        rw [show listProd [ceval rho (D.reverse[i])] =
              ceval rho (D.reverse[i]) * 1 from rfl]
        ring

/-- the reference rewrite of transform_multidim_to_1d_ref computes exactly
the row-major flat index of the spec. -/
theorem transform_ref_flat_correct (rho : String → Int) (name : String)
    (ss D : List CNode) (hne : ss ≠ []) (hlen : ss.length = D.length) :
    ∃ sub, transform_multidim_to_1d_ref (buildRef name ss) [(name, D)] =
        Except.ok (.arrayref (.id name) sub) ∧
      ceval rho sub = flatIdx (ss.map (ceval rho)) (D.map (ceval rho)) := by
  cases hss : ss with
  | nil => exact absurd hss hne
  | cons s0 st =>
      subst hss
      obtain ⟨a2, b2, hshape⟩ := buildRef_shape name s0 st
      have hchain : collectRefChain (buildRef name (s0 :: st)) =
          ((s0 :: st).reverse, .id name) := collectRefChain_buildRef name (s0 :: st)
      have hfind : ([(name, D)] : List (String × List CNode)).find?
          (fun p => p.1 == name) = some (name, D) := by simp [List.find?]
      obtain ⟨r0, rrest, hrev⟩ : ∃ r0 rrest, (s0 :: st).reverse = r0 :: rrest := by
        have : (s0 :: st).reverse ≠ [] := by simp
        exact List.exists_cons_of_ne_nil this
      obtain ⟨sl, hsl, hsum⟩ := buildSubAux_sum rho name D [(name, D)] hfind rrest 1
        (by omega)
        (by
          have h1 : (s0 :: st).reverse.length = D.length := by
            simpa using hlen
          rw [hrev] at h1
          simp only [List.length_cons] at h1
          omega)
      have hD_ne : D ≠ [] := by
        intro hq
        rw [hq] at hlen
        simp at hlen
      obtain ⟨e0, erest, hDrev⟩ : ∃ e0 erest, D.reverse = e0 :: erest := by
        have : D.reverse ≠ [] := by simpa using hD_ne
        exact List.exists_cons_of_ne_nil this
      refine ⟨sl.foldl (fun l rr => .binop "+" l rr) r0, ?_, ?_⟩
      · rw [transform_multidim_to_1d_ref.eq_def]
        rw [hshape]
        dsimp only
        rw [← hshape, hchain]
        dsimp only
        rw [hrev, buildSubAux_cons]
        simp only [if_pos rfl, except_bind_ok, hsl, reduceBinop]
        rfl
      · rw [ceval_foldl_add, hsum]
        have hdrop1 : D.reverse.drop 1 = erest := by rw [hDrev]; rfl
        have htake1 : D.reverse.take 1 = [e0] := by rw [hDrev]; rfl
        rw [hdrop1, htake1]
        have hflat : flatIdx (((s0 :: st)).map (ceval rho)) (D.map (ceval rho)) =
            sumHorner (((s0 :: st)).map (ceval rho)).reverse
              ((D.map (ceval rho))).reverse := by
          apply flatIdx_eq_sumHorner
          simpa using hlen
        rw [hflat]
        rw [← List.map_reverse, ← List.map_reverse, hrev, hDrev]
        rw [show sumHorner ((r0 :: rrest).map (ceval rho))
              ((e0 :: erest).map (ceval rho)) =
            ceval rho r0 + ceval rho e0 *
              sumHorner (rrest.map (ceval rho)) (erest.map (ceval rho)) from rfl]
        rw [show listProd (List.map (ceval rho) [e0]) = ceval rho e0 * 1 from rfl]
        ring

theorem collectDims_foldr (dims : List CNode) (tdn : Option String)
    (q : List String) (tty : CNode) :
    collectDims (dims.foldr (fun d acc => .arraydecl acc d)
      (.typedecl tdn q tty)) = (dims, .typedecl tdn q tty) := by
  induction dims with
  | nil => rfl
  | cons d t ih => simp [List.foldr_cons, collectDims, ih]

/-- the declaration pipeline (multidim collapse, then malloc rewrite)
turns an N-dimensional array declaration into an aligned_malloc of the
product of all dimensions times sizeof the element type, aligned to 32. -/
theorem transform_decl_malloc_correct (rho : String → Int) (nm ty : String)
    (d0 : CNode) (rest : List CNode) :
    ∃ size, transform_array_decl_to_malloc
        (trasform_multidim_to_1d_decl (mkArrayDeclN nm ty (d0 :: rest))).2 =
      .decl nm [] [] []
        (.ptrdecl [] (.typedecl (some nm) [] (.identifiertype [ty])))
        (some (.funccall (.id "aligned_malloc")
          (some (.exprlist [size, .const "int" "32"])))) none ∧
      ceval rho size = listProd ((d0 :: rest).map (ceval rho)) * sizeofVal ty := by
  refine ⟨.binop "*"
      (.unop "sizeof" (.typename none [] (.typedecl none [] (.identifiertype [ty]))))
      (rest.foldl (fun l rr => .binop "*" l rr) d0), ?_, ?_⟩
  · rw [mkArrayDeclN, trasform_multidim_to_1d_decl]
    rw [collectDims_foldr]
    rfl
  · rw [show ceval rho (CNode.binop "*"
        (.unop "sizeof" (.typename none [] (.typedecl none [] (.identifiertype [ty]))))
        (rest.foldl (fun l rr => .binop "*" l rr) d0)) =
      sizeofVal ty * ceval rho (rest.foldl (fun l rr => .binop "*" l rr) d0) from rfl]
    rw [ceval_foldl_mul]
    rw [show listProd (List.map (ceval rho) (d0 :: rest)) =
      ceval rho d0 * listProd (List.map (ceval rho) rest) from rfl]
    ring

/-- C4: for an N-dimensional reference with subscripts s_0..s_N-1 (outer to
inner) over declared dimensions d_0..d_N-1, the flattening transform yields
one subscript whose value is the row-major flat index
s_0*(d_1*..*d_N-1) + s_1*(d_2*..*d_N-1) + .. + s_N-1, and the declaration
pipeline rewrites the declaration into an aligned_malloc allocation of
(product of all dimensions) * sizeof(element type) bytes with alignment
argument 32; in particular a[i][j] with dimensions (4,4) flattens to the
subscript j + i*4 (arithmetically i*4 + j) and double a[4][4] is allocated
4*4*8 = 128 bytes. -/
theorem C4_row_major_flattening (rho : String → Int) (name ty : String)
    (ss D : List CNode) (hne : ss ≠ []) (hlen : ss.length = D.length) :
    (∃ sub, transform_multidim_to_1d_ref (buildRef name ss) [(name, D)] =
        Except.ok (.arrayref (.id name) sub) ∧
      ceval rho sub = flatIdx (ss.map (ceval rho)) (D.map (ceval rho))) ∧
    (∃ size, transform_array_decl_to_malloc
        (trasform_multidim_to_1d_decl (mkArrayDeclN name ty D)).2 =
      .decl name [] [] []
        (.ptrdecl [] (.typedecl (some name) [] (.identifiertype [ty])))
        (some (.funccall (.id "aligned_malloc")
          (some (.exprlist [size, .const "int" "32"])))) none ∧
      ceval rho size = listProd (D.map (ceval rho)) * sizeofVal ty) ∧
    (transform_multidim_to_1d_ref (buildRef "a" [.id "i", .id "j"])
        [("a", [.const "int" "4", .const "int" "4"])] =
      Except.ok (.arrayref (.id "a")
        (.binop "+" (.id "j") (.binop "*" (.id "i") (.const "int" "4")))) ∧
      ceval rho (.binop "+" (.id "j") (.binop "*" (.id "i") (.const "int" "4"))) =
        rho "i" * 4 + rho "j") ∧
    (match transform_array_decl_to_malloc (trasform_multidim_to_1d_decl
        (mkArrayDeclN "a" "double" [.const "int" "4", .const "int" "4"])).2 with
     | .decl _ _ _ _ _ (some (.funccall _ (some (.exprlist [sz, al])))) _ =>
         ceval (fun _ => 0) sz = 4 * 4 * 8 ∧ al = .const "int" "32"
     | _ => False) := by
  have hD_ne : D ≠ [] := by
    intro hq
    rw [hq] at hlen
    simp only [List.length_nil, List.length_eq_zero] at hlen
    exact hne hlen
  obtain ⟨d0, rest, hD⟩ := List.exists_cons_of_ne_nil hD_ne
  refine ⟨transform_ref_flat_correct rho name ss D hne hlen, ?_, ?_, ?_⟩
  · rw [hD]
    exact transform_decl_malloc_correct rho name ty d0 rest
  · refine ⟨rfl, ?_⟩
    rw [show ceval rho (.binop "+" (.id "j")
          (.binop "*" (.id "i") (.const "int" "4"))) =
        rho "j" + rho "i" * 4 from rfl]
    ring
  · exact ⟨by decide, rfl⟩

/-- C4, witness: for a[i][j] over dimensions (4,4) with i = 2, j = 3 the
general statement is instantiated concretely. -/
theorem C4_row_major_flattening_witness :
    (∃ sub, transform_multidim_to_1d_ref
        (buildRef "a" [CNode.id "i", CNode.id "j"])
        [("a", [CNode.const "int" "4", CNode.const "int" "4"])] =
        Except.ok (.arrayref (.id "a") sub) ∧
      ceval (fun nm => if nm = "i" then 2 else if nm = "j" then 3 else 0) sub =
        flatIdx ([CNode.id "i", CNode.id "j"].map
            (ceval (fun nm => if nm = "i" then 2 else if nm = "j" then 3 else 0)))
          ([CNode.const "int" "4", CNode.const "int" "4"].map
            (ceval (fun nm => if nm = "i" then 2 else if nm = "j" then 3 else 0)))) ∧
    flatIdx ([CNode.id "i", CNode.id "j"].map
        (ceval (fun nm => if nm = "i" then 2 else if nm = "j" then 3 else 0)))
      ([CNode.const "int" "4", CNode.const "int" "4"].map
        (ceval (fun nm => if nm = "i" then 2 else if nm = "j" then 3 else 0))) =
      2 * 4 + 3 := by
  constructor
  · exact (C4_row_major_flattening
      (fun nm => if nm = "i" then 2 else if nm = "j" then 3 else 0) "a" "double"
      [CNode.id "i", CNode.id "j"]
      [CNode.const "int" "4", CNode.const "int" "4"]
      (by intro h; cases h) (by rfl)).1
  · decide

/- ### Claim C7 -/

mutual

theorem beqC_refl : ∀ (a : CNode), beqC a a = true
  | .id nm => by
      show (nm == nm) = true
      simp
  | .const t v => by
      show (t == t && v == v) = true
      simp
  | .binop o l r => by
      show (o == o && beqC l l && beqC r r) = true
      simp [beqC_refl l, beqC_refl r]
  | .unop o e => by
      show (o == o && beqC e e) = true
      simp [beqC_refl e]
  | .arrayref n s => by
      show (beqC n n && beqC s s) = true
      simp [beqC_refl n, beqC_refl s]
  | .assignment o l r => by
      show (o == o && beqC l l && beqC r r) = true
      simp [beqC_refl l, beqC_refl r]
  | .funccall n a => by
      show (beqC n n && beqO a a) = true
      simp [beqC_refl n, beqO_refl a]
  | .exprlist es => by
      show beqL es es = true
      exact beqL_refl es
  | .identifiertype ns => by
      show (ns == ns) = true
      simp
  | .typedecl d q t => by
      show (d == d && q == q && beqC t t) = true
      simp [beqC_refl t]
  | .arraydecl t d => by
      show (beqC t t && beqC d d) = true
      simp [beqC_refl t, beqC_refl d]
  | .ptrdecl q t => by
      show (q == q && beqC t t) = true
      simp [beqC_refl t]
  | .typename n q t => by
      show (n == n && q == q && beqC t t) = true
      simp [beqC_refl t]
  | .funcdecl a t => by
      show (beqO a a && beqC t t) = true
      simp [beqO_refl a, beqC_refl t]
  | .decl n q s f t i b => by
      show (n == n && q == q && s == s && f == f && beqC t t && beqO i i && beqO b b) = true
      simp [beqC_refl t, beqO_refl i, beqO_refl b]
  | .decllist ds => by
      show beqL ds ds = true
      exact beqL_refl ds
  | .forloop i c n s => by
      show (beqO i i && beqC c c && beqC n n && beqC s s) = true
      simp [beqO_refl i, beqC_refl c, beqC_refl n, beqC_refl s]
  | .ifstmt c t e => by
      show (beqC c c && beqC t t && beqO e e) = true
      simp [beqC_refl c, beqC_refl t, beqO_refl e]
  | .compound is => by
      show beqL is is = true
      exact beqL_refl is
  | .funcdef d p b => by
      show (beqC d d && beqO p p && beqC b b) = true
      simp [beqC_refl d, beqO_refl p, beqC_refl b]
  | .paramlist ps => by
      show beqL ps ps = true
      exact beqL_refl ps
  | .fileast es => by
      show beqL es es = true
      exact beqL_refl es

theorem beqL_refl : ∀ (l : List CNode), beqL l l = true
  | [] => rfl
  | x :: xs => by
      show (beqC x x && beqL xs xs) = true
      simp [beqC_refl x, beqL_refl xs]

theorem beqO_refl : ∀ (o : Option CNode), beqO o o = true
  | none => rfl
  | some x => beqC_refl x

end

theorem occurs_of_beqC (x : CNode) : ∀ (y : CNode), beqC x y = true → occurs x y = true
  | .id nm, h => h
  | .const t v, h => h
  | .binop o l r, h => by
      show (beqC x (.binop o l r) || occurs x l || occurs x r) = true
      simp [h]
  | .unop o e, h => by
      show (beqC x (.unop o e) || occurs x e) = true
      simp [h]
  | .arrayref n s, h => by
      show (beqC x (.arrayref n s) || occurs x n || occurs x s) = true
      simp [h]
  | .assignment o l r, h => by
      show (beqC x (.assignment o l r) || occurs x l || occurs x r) = true
      simp [h]
  | .funccall n a, h => by
      show (beqC x (.funccall n a) || occurs x n || occursO x a) = true
      simp [h]
  | .exprlist es, h => by
      show (beqC x (.exprlist es) || occursL x es) = true
      simp [h]
  | .identifiertype ns, h => h
  | .typedecl d q t, h => by
      show (beqC x (.typedecl d q t) || occurs x t) = true
      simp [h]
  | .arraydecl t d, h => by
      show (beqC x (.arraydecl t d) || occurs x t || occurs x d) = true
      simp [h]
  | .ptrdecl q t, h => by
      show (beqC x (.ptrdecl q t) || occurs x t) = true
      simp [h]
  | .typename n q t, h => by
      show (beqC x (.typename n q t) || occurs x t) = true
      simp [h]
  | .funcdecl a t, h => by
      show (beqC x (.funcdecl a t) || occursO x a || occurs x t) = true
      simp [h]
  | .decl n q s f t i b, h => by
      show (beqC x (.decl n q s f t i b) || occurs x t || occursO x i || occursO x b) = true
      simp [h]
  | .decllist ds, h => by
      show (beqC x (.decllist ds) || occursL x ds) = true
      simp [h]
  | .forloop i c n s, h => by
      show (beqC x (.forloop i c n s) || occursO x i || occurs x c || occurs x n || occurs x s) = true
      simp [h]
  | .ifstmt c t e, h => by
      show (beqC x (.ifstmt c t e) || occurs x c || occurs x t || occursO x e) = true
      simp [h]
  | .compound is, h => by
      show (beqC x (.compound is) || occursL x is) = true
      simp [h]
  | .funcdef d p b, h => by
      show (beqC x (.funcdef d p b) || occurs x d || occursO x p || occurs x b) = true
      simp [h]
  | .paramlist ps, h => by
      show (beqC x (.paramlist ps) || occursL x ps) = true
      simp [h]
  | .fileast es, h => by
      show (beqC x (.fileast es) || occursL x es) = true
      simp [h]

theorem occurs_self (c : CNode) : occurs c c = true :=
  occurs_of_beqC c c (beqC_refl c)

theorem occursL_cons_eq (x t : CNode) (ts : List CNode) :
    occursL x (t :: ts) = (occurs x t || occursL x ts) := rfl

theorem occursL_of_occurs_mem (c e : CNode) (l : List CNode) (he : e ∈ l)
    (h : occurs c e = true) : occursL c l = true := by
  induction l with
  | nil => cases he
  | cons a as ih =>
      rcases List.mem_cons.1 he with rfl | hmem
      · rw [occursL_cons_eq, h, Bool.true_or]
      · rw [occursL_cons_eq, ih hmem, Bool.or_true]

theorem occursL_of_mem (c : CNode) (l : List CNode) (h : c ∈ l) :
    occursL c l = true :=
  occursL_of_occurs_mem c c l h (occurs_self c)

theorem occurs_mkMainAst (c : CNode) (items : List CNode)
    (h : occursL c items = true) : occurs c (mkMainAst items) = true := by
  rw [mkMainAst]
  rw [show occurs c (.fileast [CNode.decl "dummy" [] [] []
      (.funcdecl (some (.paramlist [
        .typename none [] (.ptrdecl [] (.typedecl none [] (.identifiertype ["double"])))]))
        (.typedecl (some "dummy") [] (.identifiertype ["void"]))) none none,
      CNode.decl "var_false" [] ["extern"] []
        (.typedecl (some "var_false") [] (.identifiertype ["int"])) none none,
      CNode.funcdef (CNode.decl "main" [] [] []
        (.funcdecl (some (.paramlist [
          .typename none [] (.typedecl (some "argc") [] (.identifiertype ["int"])),
          .typename none [] (.ptrdecl [] (.ptrdecl []
            (.typedecl (some "argv") [] (.identifiertype ["char"]))))]))
          (.typedecl (some "main") [] (.identifiertype ["int"]))) none none)
        none (.compound items)]) =
    (beqC c (.fileast [CNode.decl "dummy" [] [] []
      (.funcdecl (some (.paramlist [
        .typename none [] (.ptrdecl [] (.typedecl none [] (.identifiertype ["double"])))]))
        (.typedecl (some "dummy") [] (.identifiertype ["void"]))) none none,
      CNode.decl "var_false" [] ["extern"] []
        (.typedecl (some "var_false") [] (.identifiertype ["int"])) none none,
      CNode.funcdef (CNode.decl "main" [] [] []
        (.funcdecl (some (.paramlist [
          .typename none [] (.typedecl (some "argc") [] (.identifiertype ["int"])),
          .typename none [] (.ptrdecl [] (.ptrdecl []
            (.typedecl (some "argv") [] (.identifiertype ["char"]))))]))
          (.typedecl (some "main") [] (.identifiertype ["int"]))) none none)
        none (.compound items)]) ||
      occursL c [CNode.decl "dummy" [] [] []
      (.funcdecl (some (.paramlist [
        .typename none [] (.ptrdecl [] (.typedecl none [] (.identifiertype ["double"])))]))
        (.typedecl (some "dummy") [] (.identifiertype ["void"]))) none none,
      CNode.decl "var_false" [] ["extern"] []
        (.typedecl (some "var_false") [] (.identifiertype ["int"])) none none,
      CNode.funcdef (CNode.decl "main" [] [] []
        (.funcdecl (some (.paramlist [
          .typename none [] (.typedecl (some "argc") [] (.identifiertype ["int"])),
          .typename none [] (.ptrdecl [] (.ptrdecl []
            (.typedecl (some "argv") [] (.identifiertype ["char"]))))]))
          (.typedecl (some "main") [] (.identifiertype ["int"]))) none none)
        none (.compound items)]) from rfl]
  apply Bool.or_eq_true_iff.mpr
  right
  apply occursL_of_occurs_mem c
    (CNode.funcdef (CNode.decl "main" [] [] []
        (.funcdecl (some (.paramlist [
          .typename none [] (.typedecl (some "argc") [] (.identifiertype ["int"])),
          .typename none [] (.ptrdecl [] (.ptrdecl []
            (.typedecl (some "argv") [] (.identifiertype ["char"]))))]))
          (.typedecl (some "main") [] (.identifiertype ["int"]))) none none)
        none (.compound items))
  · simp
  · rw [show occurs c (CNode.funcdef (CNode.decl "main" [] [] []
        (.funcdecl (some (.paramlist [
          .typename none [] (.typedecl (some "argc") [] (.identifiertype ["int"])),
          .typename none [] (.ptrdecl [] (.ptrdecl []
            (.typedecl (some "argv") [] (.identifiertype ["char"]))))]))
          (.typedecl (some "main") [] (.identifiertype ["int"]))) none none)
        none (.compound items)) =
      (beqC c (CNode.funcdef (CNode.decl "main" [] [] []
        (.funcdecl (some (.paramlist [
          .typename none [] (.typedecl (some "argc") [] (.identifiertype ["int"])),
          .typename none [] (.ptrdecl [] (.ptrdecl []
            (.typedecl (some "argv") [] (.identifiertype ["char"]))))]))
          (.typedecl (some "main") [] (.identifiertype ["int"]))) none none)
        none (.compound items)) ||
        occurs c (CNode.decl "main" [] [] []
        (.funcdecl (some (.paramlist [
          .typename none [] (.typedecl (some "argc") [] (.identifiertype ["int"])),
          .typename none [] (.ptrdecl [] (.ptrdecl []
            (.typedecl (some "argv") [] (.identifiertype ["char"]))))]))
          (.typedecl (some "main") [] (.identifiertype ["int"]))) none none) ||
        occursO c none ||
        occurs c (.compound items)) from rfl]
    rw [show occurs c (.compound items) =
      (beqC c (.compound items) || occursL c items) from rfl]
    rw [h]
    simp

theorem except_bind_inv {α β : Type} {x : Except String α} {f : α → Except String β}
    {b : β} (h : x >>= f = Except.ok b) : ∃ a, x = Except.ok a ∧ f a = Except.ok b := by
  cases x with
  | ok a => exact ⟨a, rfl, by simpa using h⟩
  | error e =>
      rw [except_bind_err] at h
      exact Except.noConfusion h

theorem mem_take_append_drop {α : Type} {y : α} (l : List α) (n : Nat) (x : α)
    (h : y ∈ l) : y ∈ l.take n ++ [x] ++ l.drop n := by
  rw [← List.take_append_drop n l] at h
  rcases List.mem_append.1 h with h1 | h2
  · exact List.mem_append.2 (Or.inl (List.mem_append.2 (Or.inl h1)))
  · exact List.mem_append.2 (Or.inr h2)

theorem pyInsert_mem {α : Type} (l : List α) (i : Int) (x y : α) (h : y ∈ l) :
    y ∈ pyInsert l i x :=
  mem_take_append_drop l _ x h

theorem pyInsert_mem_self {α : Type} (l : List α) (i : Int) (x : α) :
    x ∈ pyInsert l i x := by
  show x ∈ l.take _ ++ [x] ++ l.drop _
  exact List.mem_append.2 (Or.inl (List.mem_append.2 (Or.inr (List.mem_singleton.2 rfl))))

theorem pop_mem_aux {α : Type} {y p : α} (l : List α) (idx : Nat)
    (hget : l.get? idx = some p) (hy : y ∈ l) :
    y = p ∨ y ∈ l.take idx ++ l.drop (idx + 1) := by
  have hidx : idx < l.length := by
    by_contra hge
    rw [List.get?_eq_none.2 (by omega)] at hget
    cases hget
  have hp : l[idx] = p := by
    rw [List.get?_eq_getElem? , List.getElem?_eq_getElem hidx] at hget
    exact Option.some.inj hget
  have hdecomp : l = l.take idx ++ l[idx] :: l.drop (idx + 1) := by
    conv_lhs => rw [← List.take_append_drop idx l]
    rw [List.drop_eq_getElem_cons hidx]
  rw [hdecomp] at hy
  rcases List.mem_append.1 hy with h1 | h2
  · exact Or.inr (List.mem_append.2 (Or.inl h1))
  · rcases List.mem_cons.1 h2 with he | h3
    · exact Or.inl (by rw [he, hp])
    · exact Or.inr (List.mem_append.2 (Or.inr h3))

theorem pyPop_mem {α : Type} (l : List α) (i : Int) (p : α) (rest : List α)
    (h : pyPop l i = some (p, rest)) (y : α) (hy : y ∈ l) : y = p ∨ y ∈ rest := by
  rw [pyPop] at h
  dsimp only at h
  set j : Int := if i < 0 then ((l.length : Int)) + i else i with hj
  by_cases hc : 0 ≤ j ∧ j < ((l.length : Int))
  · rw [if_pos hc] at h
    cases hget : l.get? j.toNat with
    | none =>
        rw [hget] at h
        exact Option.noConfusion h
    | some xx =>
        rw [hget] at h
        dsimp only at h
        injection h with h1
        injection h1 with hxp hrest
        subst hxp
        subst hrest
        exact pop_mem_aux l _ hget hy
  · rw [if_neg hc] at h
    exact Option.noConfusion h

theorem insertConstDecls_mem_mono : ∀ (cs : List (String × Int)) (i : Nat)
    (items : List CNode) (x : CNode), x ∈ items → x ∈ insertConstDecls cs i items
  | [], _, _, _, h => h
  | (k, _) :: rest, i, items, x, h =>
      insertConstDecls_mem_mono rest (i + 1) (mkConstDecl k i :: items) x
        (List.mem_cons_of_mem _ h)

theorem insertConstDecls_mem : ∀ (cs : List (String × Int)) (i : Nat)
    (items : List CNode) (k : Nat) (hk : k < cs.length),
    mkConstDecl (cs.get ⟨k, hk⟩).1 (i + k) ∈ insertConstDecls cs i items := by
  intro cs
  induction cs with
  | nil => intro i items k hk; exact absurd hk (by simp)
  | cons c rest ih =>
      intro i items k hk
      obtain ⟨knm, kv⟩ := c
      cases k with
      | zero =>
          rw [show insertConstDecls ((knm, kv) :: rest) i items =
            insertConstDecls rest (i + 1) (mkConstDecl knm i :: items) from rfl]
          rw [show (((knm, kv) :: rest).get ⟨0, hk⟩).1 = knm from rfl, Nat.add_zero]
          exact insertConstDecls_mem_mono rest (i + 1) _ _ (List.mem_cons_self _ _)
      | succ k2 =>
          rw [show insertConstDecls ((knm, kv) :: rest) i items =
            insertConstDecls rest (i + 1) (mkConstDecl knm i :: items) from rfl]
          have hk2 : k2 < rest.length := by
            simp only [List.length_cons] at hk
            omega
          rw [show (((knm, kv) :: rest).get ⟨k2 + 1, hk⟩) = rest.get ⟨k2, hk2⟩ from rfl]
          have harith : i + (k2 + 1) = (i + 1) + k2 := by omega
          rw [harith]
          exact ih (i + 1) _ k2 hk2

theorem mem_if_likwid (x a b cl : CNode) (t : String) (items2 : List CNode)
    (h : x ∈ items2) :
    x ∈ (if t == "likwid" then a :: b :: (items2 ++ [cl]) else items2) := by
  split
  · exact List.mem_cons_of_mem _ (List.mem_cons_of_mem _ (List.mem_append.2 (Or.inl h)))
  · exact h

theorem injectInits_cons (dd : List (String × List CNode)) (d : CNode)
    (rest items : List CNode) :
    injectInits dd (d :: rest) items =
      pyIndex items d >>= (fun i =>
        if (dictGetD dd (declNameOf d) []).isEmpty then
          injectInits dd rest (pyInsert (pyInsert items ((i : Int) + 1)
            (.assignment "=" (.id (declNameOf d)) (.const "float" "0.23")))
            ((i : Int) + 2) (mkDummyIf false (declNameOf d)))
        else
          mkInitFor (initCounterName (dd.map (fun p => p.1))) (declNameOf d)
              (dictGetD dd (declNameOf d) []) >>= (fun floop =>
            injectInits dd rest (pyInsert (pyInsert items ((i : Int) + 1) floop)
              ((i : Int) + 2) (mkDummyIf true (declNameOf d))))) := rfl

theorem injectInits_mem (dd : List (String × List CNode)) :
    ∀ (ds items out : List CNode), injectInits dd ds items = Except.ok out →
      ∀ x, x ∈ items → x ∈ out := by
  intro ds
  induction ds with
  | nil =>
      intro items out h x hx
      rw [show injectInits dd [] items = Except.ok items from rfl] at h
      rw [← Except.ok.inj h]
      exact hx
  | cons d rest ih =>
      intro items out h x hx
      rw [injectInits_cons] at h
      obtain ⟨i, hi, h⟩ := except_bind_inv h
      split at h
      · exact ih _ _ h x (pyInsert_mem _ _ _ _ (pyInsert_mem _ _ _ _ hx))
      · obtain ⟨floop, hfl, h⟩ := except_bind_inv h
        exact ih _ _ h x (pyInsert_mem _ _ _ _ (pyInsert_mem _ _ _ _ hx))

theorem transformRefsL_cons (dd : List (String × List CNode)) (a : CNode)
    (as : List CNode) :
    transformRefsL dd (a :: as) =
      transformRefs dd a >>= (fun y => transformRefsL dd as >>=
        (fun ys => Except.ok (y :: ys))) := rfl

theorem transformRefsL_mem_fix (dd : List (String × List CNode)) :
    ∀ (items out : List CNode), transformRefsL dd items = Except.ok out →
      ∀ x, x ∈ items → transformRefs dd x = Except.ok x → x ∈ out := by
  intro items
  induction items with
  | nil => intro out h x hx hfix; cases hx
  | cons a as ih =>
      intro out h x hx hfix
      rw [transformRefsL_cons] at h
      obtain ⟨y, hy, h⟩ := except_bind_inv h
      obtain ⟨ys, hys, h⟩ := except_bind_inv h
      rw [← Except.ok.inj h]
      rcases List.mem_cons.1 hx with rfl | hmem
      · rw [hfix] at hy
        rw [← Except.ok.inj hy]
        exact List.mem_cons_self _ _
      · exact List.mem_cons_of_mem _ (ih ys hys x hmem hfix)

theorem transformRefs_mkConstDecl (dd : List (String × List CNode))
    (nm : String) (i : Nat) :
    transformRefs dd (mkConstDecl nm i) = Except.ok (mkConstDecl nm i) := rfl

theorem occursL_pop_wrap (popped cond nxt stop : CNode) (dums i3 : List CNode) :
    occursL popped (pyInsert (pyInsert i3 (-1)
      (.forloop none cond nxt (.compound (popped :: dums)))) (-1) stop) = true :=
  occursL_of_occurs_mem _ _ _
    (pyInsert_mem _ _ _ _ (pyInsert_mem_self _ _ _))
    (by
      rw [show occurs popped (.forloop none cond nxt (.compound (popped :: dums))) =
        (beqC popped (.forloop none cond nxt (.compound (popped :: dums))) ||
          occursO popped none || occurs popped cond || occurs popped nxt ||
          occurs popped (.compound (popped :: dums))) from rfl]
      rw [show occurs popped (.compound (popped :: dums)) =
        (beqC popped (.compound (popped :: dums)) ||
          occursL popped (popped :: dums)) from rfl]
      rw [occursL_cons_eq, occurs_self]
      simp)

theorem likwidBlock_occursL (n : Nat) (dd : List (String × List CNode))
    (ds items out : List CNode) (x : CNode)
    (h : likwidBlock n dd ds items = Except.ok out)
    (hx : x ∈ pyInsert (pyInsert items (-2)
        (.funccall (.id "likwid_markerStartRegion")
          (some (.exprlist [.const "string" "\"loop\""]))))
      (-3) (mkRepeatDecl (n + 1))) :
    occursL x out = true := by
  rw [likwidBlock] at h
  dsimp only at h
  split at h
  · exact Except.noConfusion h
  · rename_i popped i3 hpop
    rw [← Except.ok.inj h]
    rcases pyPop_mem _ _ _ _ hpop x hx with rfl | hxr
    · exact occursL_pop_wrap _ _ _ _ _ _
    · exact occursL_of_mem _ _ (pyInsert_mem _ _ _ _ (pyInsert_mem _ _ _ _ hxr))

/-- the kernel s = 0.23; inside a loop to N, with one bound constant N. -/
def kernel7 : CNode := .compound
  [simpleFor "i" (.id "N") (.assignment "=" (.id "s") (.const "float" "0.23"))]

/-- a kernel state with one bound Symbolic Constant N = 100. -/
def state7 : KernelState := { initState kernel7 with constants := [("N", 100)] }

/-- the translation unit as_code generates for state7 in likwid mode. -/
def out7 : CNode :=
  match as_code "likwid" state7 with
  | Except.ok o => o
  | Except.error _ => .id "unreachable"

/-- C7: in generated code for a kernel with n bound Symbolic Constants, the
k-th constant (0-based k, in binding order) is declared as
const int name = atoi(argv[k+1]) -- argv indices start at 1 and follow the
constants' order -- and in likwid (instrumented) mode one additional
parameter, the repeat count, is read from argv[n+1]. -/
theorem C7_argv_binding (type_ : String) (st : KernelState) (out : CNode)
    (hout : as_code type_ st = Except.ok out) :
    (∀ (k : Nat) (hk : k < st.constants.length),
      occurs (mkConstDecl (st.constants.get ⟨k, hk⟩).1 (k + 1)) out = true) ∧
    (type_ = "likwid" →
      occurs (mkRepeatDecl (st.constants.length + 1)) out = true) := by
  cases hast : st.kernel_ast
  case compound items0 =>
    rw [as_code.eq_def, hast] at hout
    dsimp only at hout
    obtain ⟨items4, h4, hout⟩ := except_bind_inv hout
    obtain ⟨items5, h5, hout⟩ := except_bind_inv hout
    obtain ⟨items6, h6, hout⟩ := except_bind_inv hout
    rw [← Except.ok.inj hout]
    constructor
    · intro k hk
      apply occurs_mkMainAst
      have hmm : mkConstDecl (st.constants.get ⟨k, hk⟩).1 (k + 1) ∈
          insertConstDecls st.constants 1 (items0.map (fun it =>
            if isDecl it then transform_array_decl_to_malloc (trasform_multidim_to_1d_decl it).2
            else it)) := by
        have hmm2 := insertConstDecls_mem st.constants 1 (items0.map (fun it =>
          if isDecl it then transform_array_decl_to_malloc (trasform_multidim_to_1d_decl it).2
          else it)) k hk
        rwa [Nat.add_comm 1 k] at hmm2
      have hm4 : mkConstDecl (st.constants.get ⟨k, hk⟩).1 (k + 1) ∈ items4 :=
        injectInits_mem _ _ _ _ h4 _ (mem_if_likwid _ _ _ _ _ _ hmm)
      have hm5 : mkConstDecl (st.constants.get ⟨k, hk⟩).1 (k + 1) ∈ items5 :=
        transformRefsL_mem_fix _ _ _ h5 _ hm4 (transformRefs_mkConstDecl _ _ _)
      split at h6
      · exact likwidBlock_occursL _ _ _ _ _ _ h6
          (pyInsert_mem _ _ _ _ (pyInsert_mem _ _ _ _ hm5))
      · rw [← Except.ok.inj h6]
        exact occursL_of_mem _ _ hm5
    · intro hlk
      apply occurs_mkMainAst
      split at h6
      · exact likwidBlock_occursL _ _ _ _ _ _ h6 (pyInsert_mem_self _ _ _)
      · rename_i hne
        exact absurd (by rw [hlk]; rfl) hne
  all_goals
    rw [as_code.eq_def, hast] at hout
    exact Except.noConfusion hout

/-- C7, witness: for state7 (one constant N) in likwid mode, N is read from
argv[1] and the repeat count from argv[2]. -/
theorem C7_argv_binding_witness :
    occurs (mkConstDecl "N" 1) out7 = true ∧
    occurs (mkRepeatDecl 2) out7 = true := by
  have h := C7_argv_binding "likwid" state7 out7 rfl
  exact ⟨h.1 0 (by decide), h.2 rfl⟩

/- ### Claim C8 -/

/-- C8: code synthesis and constant re-binding leave the analysis results
intact: the as_code method hands back the Kernel state unchanged (every
rewrite happens on the deep copy), and set_constant changes only the
Constant Binding, leaving the kernel AST, Loop Stack, Variables, sources,
destinations and Operation Tally untouched -- so code can be regenerated
after re-binding without re-analysis. -/
theorem C8_frame (st : KernelState) (mode : String) (nm : ConstKey) (v : Int) :
    (as_code_method mode st).2 = st ∧
    (set_constant nm v st).kernel_ast = st.kernel_ast ∧
    (set_constant nm v st).loop_stack = st.loop_stack ∧
    (set_constant nm v st).vars = st.vars ∧
    (set_constant nm v st).sources = st.sources ∧
    (set_constant nm v st).destinations = st.destinations ∧
    (set_constant nm v st).flops = st.flops ∧
    as_code_method mode (set_constant nm v st) =
      (as_code mode (set_constant nm v st), set_constant nm v st) := by
  refine ⟨rfl, ?_, ?_, ?_, ?_, ?_, ?_, rfl⟩ <;> cases nm <;> rfl

/- ### Claim C10 -/

/-- C10: set_constant normalizes a string name to the symbol of that name:
binding via the string and binding via the symbol produce identical states;
a later binding for the same name (in either form) overwrites the earlier
value in place, and the binding keeps exactly one entry for the name. -/
theorem C10_set_constant_normalizes (st : KernelState) (n : String) (v w : Int)
    (h : st.constants.countP (fun p => p.1 == n) ≤ 1) :
    set_constant (.strKey n) v st = set_constant (.symKey n) v st ∧
    ((set_constant (.strKey n) w (set_constant (.symKey n) v st)).constants.find?
      (fun p => p.1 == n)) = some (n, w) ∧
    ((set_constant (.strKey n) w (set_constant (.symKey n) v st)).constants.countP
      (fun p => p.1 == n)) = 1 := by
  refine ⟨rfl, ?_, ?_⟩
  · exact dictInsert_find (dictInsert st.constants n v) n w
  · show (dictInsert (dictInsert st.constants n v) n w).countP (fun p => p.1 == n) = 1
    have h1 : (dictInsert st.constants n v).countP (fun p => p.1 == n) = 1 := by
      rw [dictInsert_countP]
      by_cases hc : dictContains st.constants n = true
      · rw [if_pos hc]
        have hpos := (dictContains_iff_countP_pos st.constants n).1 hc
        omega
      · rw [if_neg hc]
        have hz : ¬ 0 < st.constants.countP (fun p => p.1 == n) := by
          intro hpos
          exact hc ((dictContains_iff_countP_pos st.constants n).2 hpos)
        omega
    have hc1 : dictContains (dictInsert st.constants n v) n = true :=
      (dictContains_iff_countP_pos _ n).2 (by omega)
    rw [dictInsert_countP, if_pos hc1, h1]

/-- C10, witness: two bindings of N through the two name forms over an
initially empty binding. -/
theorem C10_set_constant_normalizes_witness :
    set_constant (.strKey "N") 1 (initState (.compound [])) =
      set_constant (.symKey "N") 1 (initState (.compound [])) ∧
    ((set_constant (.strKey "N") 2 (set_constant (.symKey "N") 1
        (initState (.compound [])))).constants.find? (fun p => p.1 == "N")) =
      some ("N", 2) ∧
    ((set_constant (.strKey "N") 2 (set_constant (.symKey "N") 1
        (initState (.compound [])))).constants.countP (fun p => p.1 == "N")) = 1 :=
  C10_set_constant_normalizes (initState (.compound [])) "N" 1 2 (by decide)

end Kerncraft
